import Mathlib

/-!
Verification of the SRT glossary tool (`srt_tool_pro.py`).

Text is embedded as `List Char`.  Python's Unicode tables are embedded for the
character ranges the program's regexes and classifiers actually touch:
`\d` / `str.isdigit` are restricted to the ASCII digits, and simple lowercase
folding is provided for the characters occurring in the seeded glossary
patterns.  Everything else (line splitting, whitespace stripping, the SubRip
timecode recogniser, `re.sub` scanning for the pattern shapes used by the
program, the glossary fold, backups and the batch worker) is translated
directly from the source.
-/

/-- Python `\s` / `str.isspace` for the Basic Multilingual Plane:
space, the ASCII control whitespace, the file/group/record/unit separators,
NEL, NBSP and the Unicode space characters. -/
def pyIsSpace (c : Char) : Bool :=
  let n := c.toNat
  (9 ≤ n && n ≤ 13) || n = 32 || (28 ≤ n && n ≤ 31) || n = 133 || n = 160 ||
  n = 5760 || (8192 ≤ n && n ≤ 8202) || n = 8232 || n = 8233 || n = 8239 ||
  n = 8287 || n = 12288

/-- The characters `str.splitlines` treats as line boundaries:
LF, VT, FF, CR, FS, GS, RS, NEL, LINE SEPARATOR, PARAGRAPH SEPARATOR. -/
def isLineBreak (c : Char) : Bool :=
  let n := c.toNat
  (10 ≤ n && n ≤ 13) || (28 ≤ n && n ≤ 30) || n = 133 || n = 8232 || n = 8233

/-- Decimal digit as matched by `\d` in the program's timecode regex and
accepted by `str.isdigit` (restricted to ASCII digits). -/
def pyIsDigit (c : Char) : Bool :=
  '0' ≤ c && c ≤ '9'

/-- The character class `[A-Za-zÀ-ỹ]` as written in the seeded glossary
patterns (codepoint ranges 65–90, 97–122, 192–7929): the membership test a
non-case-insensitive pattern would perform.  The case-insensitive test the
seeded patterns actually perform is `letterTest` below. -/
def letterClass (c : Char) : Bool :=
  let n := c.toNat
  (65 ≤ n && n ≤ 90) || (97 ≤ n && n ≤ 122) || (192 ≤ n && n ≤ 7929)

/-- `str.splitlines()`: split at line-boundary characters, treating CRLF as a
single boundary; a trailing boundary does not produce an extra empty line. -/
def pySplitlines : List Char → List (List Char)
  | [] => []
  | '\r' :: '\n' :: rest => [] :: pySplitlines rest
  | c :: rest =>
    if isLineBreak c then [] :: pySplitlines rest
    else
      match pySplitlines rest with
      | [] => [[c]]
      | l :: ls => (c :: l) :: ls

/-- `str.strip()`: drop whitespace from both ends. -/
def pyStrip (s : List Char) : List Char :=
  ((s.dropWhile pyIsSpace).reverse.dropWhile pyIsSpace).reverse

/-- `is_index_line`: `line.strip().isdigit()` — nonempty and all digits after
stripping. -/
def is_index_line (line : List Char) : Bool :=
  let t := pyStrip line
  !t.isEmpty && t.all pyIsDigit

/-- Consume exactly `n` decimal digits. -/
def parseDigits : Nat → List Char → Option (List Char)
  | 0, s => some s
  | n + 1, c :: s => if pyIsDigit c then parseDigits n s else none
  | _ + 1, [] => none

/-- Consume one expected character. -/
def parseChar (x : Char) : List Char → Option (List Char)
  | c :: s => if c = x then some s else none
  | [] => none

/-- Consume `\d{2}:\d{2}:\d{2},\d{3}` — one SubRip timestamp. -/
def parseTimestamp (s : List Char) : Option (List Char) :=
  (parseDigits 2 s).bind (parseChar ':') |>.bind (parseDigits 2)
    |>.bind (parseChar ':') |>.bind (parseDigits 2) |>.bind (parseChar ',')
    |>.bind (parseDigits 3)

/-- `is_timecode_line`: match of
`^\s*\d{2}:\d{2}:\d{2},\d{3}\s*-->\s*\d{2}:\d{2}:\d{2},\d{3}\s*$`. -/
def is_timecode_line (line : List Char) : Bool :=
  match parseTimestamp (line.dropWhile pyIsSpace) with
  | none => false
  | some s1 =>
    match s1.dropWhile pyIsSpace with
    | '-' :: '-' :: '>' :: s3 =>
      match parseTimestamp (s3.dropWhile pyIsSpace) with
      | none => false
      | some s5 => (s5.dropWhile pyIsSpace).isEmpty
    | _ => false

/-- A structural line of the SRT document: index line, timecode line, or
blank after stripping. -/
def isStructural (line : List Char) : Bool :=
  is_index_line line || is_timecode_line line || (pyStrip line).isEmpty

/-- `"\n".join` on the line list. -/
def joinNl : List (List Char) → List Char
  | [] => []
  | [l] => l
  | l :: ls => l ++ '\n' :: joinNl ls

/-- Whether the text ends with the LF character — the exact
`content.endswith("\n")` test of `process_srt_text`. -/
def endsWithLF (s : List Char) : Bool :=
  s.getLast? = some '\n'

/-- The per-line action of `process_srt_text`: structural lines pass through,
dialogue lines go through the glossary (`applyLine` stands for
`apply_glossary` at a fixed rule list). -/
def transform_line (applyLine : List Char → List Char) (line : List Char) :
    List Char :=
  if isStructural line then line else applyLine line

/-- `process_srt_text`: split into lines, keep structural lines, apply the
glossary to dialogue lines, join with `"\n"` and restore a trailing LF iff
the input ended with one. -/
def process_srt_text (applyLine : List Char → List Char) (content : List Char) :
    List Char :=
  joinNl ((pySplitlines content).map (transform_line applyLine)) ++
    (if endsWithLF content then ['\n'] else [])

/-- `GlossaryRule` dataclass.  `replace` is optional because the rule list is
loaded from JSON and `apply_glossary` explicitly guards `replace is not None`. -/
structure GlossaryRule where
  pattern : String
  replace : Option String
  enabled : Bool
  notes : String
deriving DecidableEq, Repr

/-- One step of `apply_glossary`'s loop: if the rule is enabled with a
nonempty pattern and a present replacement, run `re.sub` (`sub`); a `re.error`
raised there (modelled by `none`) is swallowed and the line passes through
unchanged. -/
def glossaryStep (sub : GlossaryRule → List Char → Option (List Char))
    (cur : List Char) (r : GlossaryRule) : List Char :=
  if r.enabled && !r.pattern.isEmpty && r.replace.isSome then
    match sub r cur with
    | some s => s
    | none => cur
  else cur

/-- `apply_glossary`: fold the rules in list order over the line, each rule's
output feeding the next rule; the function is total — no rule failure is
surfaced to the caller. -/
def apply_glossary (sub : GlossaryRule → List Char → Option (List Char))
    (rules : List GlossaryRule) (line : List Char) : List Char :=
  rules.foldl (glossaryStep sub) line

/-- The persisted glossary storage as `GlossaryManager.load` can find it:
absent, present but unreadable/malformed (any exception while reading or
parsing), or well-formed with a rule list. -/
inductive GlossaryStorage where
  | absent
  | malformed
  | wellformed (rules : List GlossaryRule)
deriving DecidableEq

/-- The three seeded default rules, patterns exactly as in the source. -/
def default_seed_rules : List GlossaryRule :=
  [ { pattern := r"(?i)(?<![A-Za-zÀ-ỹ])hình\s*ảnh(?![A-Za-zÀ-ỹ])|(?<![A-Za-zÀ-ỹ])hinh\s*anh(?![A-Za-zÀ-ỹ])",
      replace := some "Image", enabled := true, notes := "hình ảnh -> Image" },
    { pattern := r"(?i)(?<![A-Za-zÀ-ỹ])nút(?![A-Za-zÀ-ỹ])|(?<![A-Za-zÀ-ỹ])nut(?![A-Za-zÀ-ỹ])",
      replace := some "node", enabled := true, notes := "nút -> node" },
    { pattern := r"(?i)(?<![A-Za-zÀ-ỹ])thùng\s*chứa(?![A-Za-zÀ-ỹ])|(?<![A-Za-zÀ-ỹ])thùng\s*chưa(?![A-Za-zÀ-ỹ])|(?<![A-Za-zÀ-ỹ])thung\s*chua(?![A-Za-zÀ-ỹ])",
      replace := some "container", enabled := true, notes := "thùng chứa -> container" } ]

/-- `GlossaryManager.load`, returning the in-memory rule list and the storage
after the call: absent storage gets the seeded defaults installed and saved;
an unreadable/malformed file yields the empty rule list with the storage left
untouched; a well-formed file is loaded as-is. -/
def GlossaryManager.load : GlossaryStorage → List GlossaryRule × GlossaryStorage
  | .absent => (default_seed_rules, .wellformed default_seed_rules)
  | .malformed => ([], .malformed)
  | .wellformed rules => (rules, .wellformed rules)

/-- Decoded view of a file's bytes: either text that one of the candidate
encodings decodes, or bytes no candidate encoding can decode. -/
inductive FileData where
  | text (s : List Char)
  | binary (b : List Nat)
deriving DecidableEq

/-- A filesystem: an association list of paths to file data, plus the set of
paths on which a write raises an `OSError`. -/
structure FS where
  files : List (String × FileData)
  writeFail : List String
deriving DecidableEq

/-- Read a file (`none` when the path does not exist). -/
def FS.read (fs : FS) (p : String) : Option FileData :=
  fs.files.lookup p

/-- `Path.exists()`. -/
def FS.pathExists (fs : FS) (p : String) : Bool :=
  (fs.read p).isSome

/-- A write that may raise: `none` models an `OSError` on that path.  The new
entry is prepended; `FS.read` returns the most recent entry for a path. -/
def FS.write (fs : FS) (p : String) (d : FileData) : Option FS :=
  if p ∈ fs.writeFail then none
  else some ⟨(p, d) :: fs.files, fs.writeFail⟩

/-- An external mutation of a file, used to model the file changing between
two calls (always succeeds, bypassing the failure model). -/
def FS.setFile (fs : FS) (p : String) (d : FileData) : FS :=
  ⟨(p, d) :: fs.files, fs.writeFail⟩

/-- The sidecar path: `path.with_suffix(path.suffix + ".bak")`, i.e. the
original path with `.bak` appended. -/
def bakPath (p : String) : String := p ++ ".bak"

/-- `write_backup`: if no sidecar exists, copy the file's current bytes to
the sidecar; no-op when the sidecar already exists.  `none` models an
exception (source file unreadable/absent, or the sidecar write failing). -/
def write_backup (fs : FS) (p : String) : Option FS :=
  if fs.pathExists (bakPath p) then some fs
  else
    match fs.read p with
    | none => none
    | some d => fs.write (bakPath p) d

/-- `detect_encoding`, reduced to its contract: text files decode to their
text, undecodable or missing files raise (`none`). -/
def detect_encoding (fs : FS) (p : String) : Option (List Char) :=
  match fs.read p with
  | some (.text s) => some s
  | _ => none

/-- Per-file outcome recorded by the batch worker's log. -/
inductive Outcome where
  | changed
  | ok
  | error
deriving DecidableEq, Repr

/-- One file of `App._worker_run`'s loop body: decode, transform, and if
changed and not a dry run, back up (when enabled) and overwrite; any
exception on the way is caught and recorded as an error outcome, leaving the
loop to continue. -/
def worker_step (f : List Char → List Char) (dryrun backup : Bool)
    (fs : FS) (p : String) : FS × Outcome :=
  match detect_encoding fs p with
  | none => (fs, .error)
  | some original =>
    let transformed := process_srt_text f original
    if transformed ≠ original then
      if dryrun then (fs, .changed)
      else if backup then
        match write_backup fs p with
        | none => (fs, .error)
        | some fs1 =>
          match fs1.write p (.text transformed) with
          | none => (fs1, .error)
          | some fs2 => (fs2, .changed)
      else
        match fs.write p (.text transformed) with
        | none => (fs, .error)
        | some fs2 => (fs2, .changed)
    else (fs, .ok)

/-- `App._worker_run` over an already-enumerated file list (cancellation not
exercised): process every file in order, collecting the per-file outcomes. -/
def worker_run (f : List Char → List Char) (dryrun backup : Bool)
    (fs : FS) : List String → FS × List Outcome
  | [] => (fs, [])
  | p :: rest =>
    let s := worker_step f dryrun backup fs p
    let r := worker_run f dryrun backup s.1 rest
    (r.1, s.2 :: r.2)

/-- `Path.suffix`: the extension of the final component including the dot;
empty when there is no dot, when the name starts with the only dot, or when
the name ends with the dot. -/
def pathSuffix (n : List Char) : List Char :=
  let tailAfter := n.reverse.takeWhile (fun c => c ≠ '.')
  if tailAfter.length = n.length then []
  else if tailAfter.length = 0 then []
  else if tailAfter.length = n.length - 1 then []
  else '.' :: tailAfter.reverse

/-- ASCII lowercase of a character list (`str.lower()` on extension text). -/
def asciiLower (s : List Char) : List Char := s.map Char.toLower

/-- The name test performed by `glob("*.srt")` / `rglob("*.srt")`: the
fnmatch translation of the literal pattern, a case-sensitive `.srt` suffix
match on the entry name (POSIX case sensitivity). -/
def globSrt (name : List Char) : Bool :=
  name.reverse.take 4 = ['t', 'r', 's', '.']

/-- The batch root: a single file (with its name), or a directory whose files
are listed as (relative directory segments, file name); directories hold only
the files themselves, matching the `is_file()` filter in the source. -/
inductive BatchRoot where
  | file (name : List Char)
  | dir (entries : List (List String × List Char))
deriving DecidableEq

/-- `iter_srt_files`: a root that is itself a file is yielded exactly when
its suffix lowercases to `.srt`; a directory root yields the entries matching
`*.srt` — all of them when recursive, else only the direct children. -/
def iter_srt_files (root : BatchRoot) (recursive : Bool) :
    List (List String × List Char) :=
  match root with
  | .file name =>
    if asciiLower (pathSuffix name) = ['.', 's', 'r', 't'] then [([], name)] else []
  | .dir entries =>
    if recursive then entries.filter (fun e => globSrt e.2)
    else entries.filter (fun e => e.1 = [] && globSrt e.2)

/-- Whether the text ends with any line-boundary character (the spec's
"ends with a line terminator"). -/
def endsWithLineBreak (s : List Char) : Bool :=
  match s.getLast? with
  | some c => isLineBreak c
  | none => false

/-!
### A `re.sub` engine for the pattern shapes the program uses

Every pattern the seeded glossary compiles, and every literal pattern, is an
alternation of branches of the form
`(?<![A-Za-zÀ-ỹ]) w₁ \s* w₂ (?![A-Za-zÀ-ỹ])` (the `\s* w₂` part optional,
the lookarounds present iff `guard`, case folding iff `ci`), where `w₁`, `w₂`
are literal words.  Matching such a branch is deterministic: the greedy `\s*`
can only stop at the maximal whitespace run because `w₂` never begins with
whitespace.  `re.sub` scans left to right, replaces each non-overlapping
match, and continues after the matched text; lookbehinds always inspect the
original string.  Under `re.IGNORECASE` every comparison folds the subject
character with `foldChar`, and the lookaround class is tested with
`letterTest`, both defined above from CPython's tables.
-/

set_option maxHeartbeats 2000000 in
/-- The Unicode simple lowercase mapping (CPython's `Py_UNICODE_TOLOWER`),
the fold `re.IGNORECASE` applies to each subject character before comparing:
every codepoint outside ASCII whose simple lowercase differs from itself,
with its image.  (This equals the single-character value of `str.lower`; the
only character whose full lowercase is not a single character, U+0130, has
simple lowercase `i`.) -/
def lowerTable : List (Nat × Nat) := [
  (192, 224), (193, 225), (194, 226), (195, 227), (196, 228), (197, 229), (198, 230), (199, 231),
  (200, 232), (201, 233), (202, 234), (203, 235), (204, 236), (205, 237), (206, 238), (207, 239),
  (208, 240), (209, 241), (210, 242), (211, 243), (212, 244), (213, 245), (214, 246), (216, 248),
  (217, 249), (218, 250), (219, 251), (220, 252), (221, 253), (222, 254), (256, 257), (258, 259),
  (260, 261), (262, 263), (264, 265), (266, 267), (268, 269), (270, 271), (272, 273), (274, 275),
  (276, 277), (278, 279), (280, 281), (282, 283), (284, 285), (286, 287), (288, 289), (290, 291),
  (292, 293), (294, 295), (296, 297), (298, 299), (300, 301), (302, 303), (304, 105), (306, 307),
  (308, 309), (310, 311), (313, 314), (315, 316), (317, 318), (319, 320), (321, 322), (323, 324),
  (325, 326), (327, 328), (330, 331), (332, 333), (334, 335), (336, 337), (338, 339), (340, 341),
  (342, 343), (344, 345), (346, 347), (348, 349), (350, 351), (352, 353), (354, 355), (356, 357),
  (358, 359), (360, 361), (362, 363), (364, 365), (366, 367), (368, 369), (370, 371), (372, 373),
  (374, 375), (376, 255), (377, 378), (379, 380), (381, 382), (385, 595), (386, 387), (388, 389),
  (390, 596), (391, 392), (393, 598), (394, 599), (395, 396), (398, 477), (399, 601), (400, 603),
  (401, 402), (403, 608), (404, 611), (406, 617), (407, 616), (408, 409), (412, 623), (413, 626),
  (415, 629), (416, 417), (418, 419), (420, 421), (422, 640), (423, 424), (425, 643), (428, 429),
  (430, 648), (431, 432), (433, 650), (434, 651), (435, 436), (437, 438), (439, 658), (440, 441),
  (444, 445), (452, 454), (453, 454), (455, 457), (456, 457), (458, 460), (459, 460), (461, 462),
  (463, 464), (465, 466), (467, 468), (469, 470), (471, 472), (473, 474), (475, 476), (478, 479),
  (480, 481), (482, 483), (484, 485), (486, 487), (488, 489), (490, 491), (492, 493), (494, 495),
  (497, 499), (498, 499), (500, 501), (502, 405), (503, 447), (504, 505), (506, 507), (508, 509),
  (510, 511), (512, 513), (514, 515), (516, 517), (518, 519), (520, 521), (522, 523), (524, 525),
  (526, 527), (528, 529), (530, 531), (532, 533), (534, 535), (536, 537), (538, 539), (540, 541),
  (542, 543), (544, 414), (546, 547), (548, 549), (550, 551), (552, 553), (554, 555), (556, 557),
  (558, 559), (560, 561), (562, 563), (570, 11365), (571, 572), (573, 410), (574, 11366), (577, 578),
  (579, 384), (580, 649), (581, 652), (582, 583), (584, 585), (586, 587), (588, 589), (590, 591),
  (880, 881), (882, 883), (886, 887), (895, 1011), (902, 940), (904, 941), (905, 942), (906, 943),
  (908, 972), (910, 973), (911, 974), (913, 945), (914, 946), (915, 947), (916, 948), (917, 949),
  (918, 950), (919, 951), (920, 952), (921, 953), (922, 954), (923, 955), (924, 956), (925, 957),
  (926, 958), (927, 959), (928, 960), (929, 961), (931, 963), (932, 964), (933, 965), (934, 966),
  (935, 967), (936, 968), (937, 969), (938, 970), (939, 971), (975, 983), (984, 985), (986, 987),
  (988, 989), (990, 991), (992, 993), (994, 995), (996, 997), (998, 999), (1000, 1001), (1002, 1003),
  (1004, 1005), (1006, 1007), (1012, 952), (1015, 1016), (1017, 1010), (1018, 1019), (1021, 891), (1022, 892),
  (1023, 893), (1024, 1104), (1025, 1105), (1026, 1106), (1027, 1107), (1028, 1108), (1029, 1109), (1030, 1110),
  (1031, 1111), (1032, 1112), (1033, 1113), (1034, 1114), (1035, 1115), (1036, 1116), (1037, 1117), (1038, 1118),
  (1039, 1119), (1040, 1072), (1041, 1073), (1042, 1074), (1043, 1075), (1044, 1076), (1045, 1077), (1046, 1078),
  (1047, 1079), (1048, 1080), (1049, 1081), (1050, 1082), (1051, 1083), (1052, 1084), (1053, 1085), (1054, 1086),
  (1055, 1087), (1056, 1088), (1057, 1089), (1058, 1090), (1059, 1091), (1060, 1092), (1061, 1093), (1062, 1094),
  (1063, 1095), (1064, 1096), (1065, 1097), (1066, 1098), (1067, 1099), (1068, 1100), (1069, 1101), (1070, 1102),
  (1071, 1103), (1120, 1121), (1122, 1123), (1124, 1125), (1126, 1127), (1128, 1129), (1130, 1131), (1132, 1133),
  (1134, 1135), (1136, 1137), (1138, 1139), (1140, 1141), (1142, 1143), (1144, 1145), (1146, 1147), (1148, 1149),
  (1150, 1151), (1152, 1153), (1162, 1163), (1164, 1165), (1166, 1167), (1168, 1169), (1170, 1171), (1172, 1173),
  (1174, 1175), (1176, 1177), (1178, 1179), (1180, 1181), (1182, 1183), (1184, 1185), (1186, 1187), (1188, 1189),
  (1190, 1191), (1192, 1193), (1194, 1195), (1196, 1197), (1198, 1199), (1200, 1201), (1202, 1203), (1204, 1205),
  (1206, 1207), (1208, 1209), (1210, 1211), (1212, 1213), (1214, 1215), (1216, 1231), (1217, 1218), (1219, 1220),
  (1221, 1222), (1223, 1224), (1225, 1226), (1227, 1228), (1229, 1230), (1232, 1233), (1234, 1235), (1236, 1237),
  (1238, 1239), (1240, 1241), (1242, 1243), (1244, 1245), (1246, 1247), (1248, 1249), (1250, 1251), (1252, 1253),
  (1254, 1255), (1256, 1257), (1258, 1259), (1260, 1261), (1262, 1263), (1264, 1265), (1266, 1267), (1268, 1269),
  (1270, 1271), (1272, 1273), (1274, 1275), (1276, 1277), (1278, 1279), (1280, 1281), (1282, 1283), (1284, 1285),
  (1286, 1287), (1288, 1289), (1290, 1291), (1292, 1293), (1294, 1295), (1296, 1297), (1298, 1299), (1300, 1301),
  (1302, 1303), (1304, 1305), (1306, 1307), (1308, 1309), (1310, 1311), (1312, 1313), (1314, 1315), (1316, 1317),
  (1318, 1319), (1320, 1321), (1322, 1323), (1324, 1325), (1326, 1327), (1329, 1377), (1330, 1378), (1331, 1379),
  (1332, 1380), (1333, 1381), (1334, 1382), (1335, 1383), (1336, 1384), (1337, 1385), (1338, 1386), (1339, 1387),
  (1340, 1388), (1341, 1389), (1342, 1390), (1343, 1391), (1344, 1392), (1345, 1393), (1346, 1394), (1347, 1395),
  (1348, 1396), (1349, 1397), (1350, 1398), (1351, 1399), (1352, 1400), (1353, 1401), (1354, 1402), (1355, 1403),
  (1356, 1404), (1357, 1405), (1358, 1406), (1359, 1407), (1360, 1408), (1361, 1409), (1362, 1410), (1363, 1411),
  (1364, 1412), (1365, 1413), (1366, 1414), (4256, 11520), (4257, 11521), (4258, 11522), (4259, 11523), (4260, 11524),
  (4261, 11525), (4262, 11526), (4263, 11527), (4264, 11528), (4265, 11529), (4266, 11530), (4267, 11531), (4268, 11532),
  (4269, 11533), (4270, 11534), (4271, 11535), (4272, 11536), (4273, 11537), (4274, 11538), (4275, 11539), (4276, 11540),
  (4277, 11541), (4278, 11542), (4279, 11543), (4280, 11544), (4281, 11545), (4282, 11546), (4283, 11547), (4284, 11548),
  (4285, 11549), (4286, 11550), (4287, 11551), (4288, 11552), (4289, 11553), (4290, 11554), (4291, 11555), (4292, 11556),
  (4293, 11557), (4295, 11559), (4301, 11565), (5024, 43888), (5025, 43889), (5026, 43890), (5027, 43891), (5028, 43892),
  (5029, 43893), (5030, 43894), (5031, 43895), (5032, 43896), (5033, 43897), (5034, 43898), (5035, 43899), (5036, 43900),
  (5037, 43901), (5038, 43902), (5039, 43903), (5040, 43904), (5041, 43905), (5042, 43906), (5043, 43907), (5044, 43908),
  (5045, 43909), (5046, 43910), (5047, 43911), (5048, 43912), (5049, 43913), (5050, 43914), (5051, 43915), (5052, 43916),
  (5053, 43917), (5054, 43918), (5055, 43919), (5056, 43920), (5057, 43921), (5058, 43922), (5059, 43923), (5060, 43924),
  (5061, 43925), (5062, 43926), (5063, 43927), (5064, 43928), (5065, 43929), (5066, 43930), (5067, 43931), (5068, 43932),
  (5069, 43933), (5070, 43934), (5071, 43935), (5072, 43936), (5073, 43937), (5074, 43938), (5075, 43939), (5076, 43940),
  (5077, 43941), (5078, 43942), (5079, 43943), (5080, 43944), (5081, 43945), (5082, 43946), (5083, 43947), (5084, 43948),
  (5085, 43949), (5086, 43950), (5087, 43951), (5088, 43952), (5089, 43953), (5090, 43954), (5091, 43955), (5092, 43956),
  (5093, 43957), (5094, 43958), (5095, 43959), (5096, 43960), (5097, 43961), (5098, 43962), (5099, 43963), (5100, 43964),
  (5101, 43965), (5102, 43966), (5103, 43967), (5104, 5112), (5105, 5113), (5106, 5114), (5107, 5115), (5108, 5116),
  (5109, 5117), (7312, 4304), (7313, 4305), (7314, 4306), (7315, 4307), (7316, 4308), (7317, 4309), (7318, 4310),
  (7319, 4311), (7320, 4312), (7321, 4313), (7322, 4314), (7323, 4315), (7324, 4316), (7325, 4317), (7326, 4318),
  (7327, 4319), (7328, 4320), (7329, 4321), (7330, 4322), (7331, 4323), (7332, 4324), (7333, 4325), (7334, 4326),
  (7335, 4327), (7336, 4328), (7337, 4329), (7338, 4330), (7339, 4331), (7340, 4332), (7341, 4333), (7342, 4334),
  (7343, 4335), (7344, 4336), (7345, 4337), (7346, 4338), (7347, 4339), (7348, 4340), (7349, 4341), (7350, 4342),
  (7351, 4343), (7352, 4344), (7353, 4345), (7354, 4346), (7357, 4349), (7358, 4350), (7359, 4351), (7680, 7681),
  (7682, 7683), (7684, 7685), (7686, 7687), (7688, 7689), (7690, 7691), (7692, 7693), (7694, 7695), (7696, 7697),
  (7698, 7699), (7700, 7701), (7702, 7703), (7704, 7705), (7706, 7707), (7708, 7709), (7710, 7711), (7712, 7713),
  (7714, 7715), (7716, 7717), (7718, 7719), (7720, 7721), (7722, 7723), (7724, 7725), (7726, 7727), (7728, 7729),
  (7730, 7731), (7732, 7733), (7734, 7735), (7736, 7737), (7738, 7739), (7740, 7741), (7742, 7743), (7744, 7745),
  (7746, 7747), (7748, 7749), (7750, 7751), (7752, 7753), (7754, 7755), (7756, 7757), (7758, 7759), (7760, 7761),
  (7762, 7763), (7764, 7765), (7766, 7767), (7768, 7769), (7770, 7771), (7772, 7773), (7774, 7775), (7776, 7777),
  (7778, 7779), (7780, 7781), (7782, 7783), (7784, 7785), (7786, 7787), (7788, 7789), (7790, 7791), (7792, 7793),
  (7794, 7795), (7796, 7797), (7798, 7799), (7800, 7801), (7802, 7803), (7804, 7805), (7806, 7807), (7808, 7809),
  (7810, 7811), (7812, 7813), (7814, 7815), (7816, 7817), (7818, 7819), (7820, 7821), (7822, 7823), (7824, 7825),
  (7826, 7827), (7828, 7829), (7838, 223), (7840, 7841), (7842, 7843), (7844, 7845), (7846, 7847), (7848, 7849),
  (7850, 7851), (7852, 7853), (7854, 7855), (7856, 7857), (7858, 7859), (7860, 7861), (7862, 7863), (7864, 7865),
  (7866, 7867), (7868, 7869), (7870, 7871), (7872, 7873), (7874, 7875), (7876, 7877), (7878, 7879), (7880, 7881),
  (7882, 7883), (7884, 7885), (7886, 7887), (7888, 7889), (7890, 7891), (7892, 7893), (7894, 7895), (7896, 7897),
  (7898, 7899), (7900, 7901), (7902, 7903), (7904, 7905), (7906, 7907), (7908, 7909), (7910, 7911), (7912, 7913),
  (7914, 7915), (7916, 7917), (7918, 7919), (7920, 7921), (7922, 7923), (7924, 7925), (7926, 7927), (7928, 7929),
  (7930, 7931), (7932, 7933), (7934, 7935), (7944, 7936), (7945, 7937), (7946, 7938), (7947, 7939), (7948, 7940),
  (7949, 7941), (7950, 7942), (7951, 7943), (7960, 7952), (7961, 7953), (7962, 7954), (7963, 7955), (7964, 7956),
  (7965, 7957), (7976, 7968), (7977, 7969), (7978, 7970), (7979, 7971), (7980, 7972), (7981, 7973), (7982, 7974),
  (7983, 7975), (7992, 7984), (7993, 7985), (7994, 7986), (7995, 7987), (7996, 7988), (7997, 7989), (7998, 7990),
  (7999, 7991), (8008, 8000), (8009, 8001), (8010, 8002), (8011, 8003), (8012, 8004), (8013, 8005), (8025, 8017),
  (8027, 8019), (8029, 8021), (8031, 8023), (8040, 8032), (8041, 8033), (8042, 8034), (8043, 8035), (8044, 8036),
  (8045, 8037), (8046, 8038), (8047, 8039), (8072, 8064), (8073, 8065), (8074, 8066), (8075, 8067), (8076, 8068),
  (8077, 8069), (8078, 8070), (8079, 8071), (8088, 8080), (8089, 8081), (8090, 8082), (8091, 8083), (8092, 8084),
  (8093, 8085), (8094, 8086), (8095, 8087), (8104, 8096), (8105, 8097), (8106, 8098), (8107, 8099), (8108, 8100),
  (8109, 8101), (8110, 8102), (8111, 8103), (8120, 8112), (8121, 8113), (8122, 8048), (8123, 8049), (8124, 8115),
  (8136, 8050), (8137, 8051), (8138, 8052), (8139, 8053), (8140, 8131), (8152, 8144), (8153, 8145), (8154, 8054),
  (8155, 8055), (8168, 8160), (8169, 8161), (8170, 8058), (8171, 8059), (8172, 8165), (8184, 8056), (8185, 8057),
  (8186, 8060), (8187, 8061), (8188, 8179), (8486, 969), (8490, 107), (8491, 229), (8498, 8526), (8544, 8560),
  (8545, 8561), (8546, 8562), (8547, 8563), (8548, 8564), (8549, 8565), (8550, 8566), (8551, 8567), (8552, 8568),
  (8553, 8569), (8554, 8570), (8555, 8571), (8556, 8572), (8557, 8573), (8558, 8574), (8559, 8575), (8579, 8580),
  (9398, 9424), (9399, 9425), (9400, 9426), (9401, 9427), (9402, 9428), (9403, 9429), (9404, 9430), (9405, 9431),
  (9406, 9432), (9407, 9433), (9408, 9434), (9409, 9435), (9410, 9436), (9411, 9437), (9412, 9438), (9413, 9439),
  (9414, 9440), (9415, 9441), (9416, 9442), (9417, 9443), (9418, 9444), (9419, 9445), (9420, 9446), (9421, 9447),
  (9422, 9448), (9423, 9449), (11264, 11312), (11265, 11313), (11266, 11314), (11267, 11315), (11268, 11316), (11269, 11317),
  (11270, 11318), (11271, 11319), (11272, 11320), (11273, 11321), (11274, 11322), (11275, 11323), (11276, 11324), (11277, 11325),
  (11278, 11326), (11279, 11327), (11280, 11328), (11281, 11329), (11282, 11330), (11283, 11331), (11284, 11332), (11285, 11333),
  (11286, 11334), (11287, 11335), (11288, 11336), (11289, 11337), (11290, 11338), (11291, 11339), (11292, 11340), (11293, 11341),
  (11294, 11342), (11295, 11343), (11296, 11344), (11297, 11345), (11298, 11346), (11299, 11347), (11300, 11348), (11301, 11349),
  (11302, 11350), (11303, 11351), (11304, 11352), (11305, 11353), (11306, 11354), (11307, 11355), (11308, 11356), (11309, 11357),
  (11310, 11358), (11311, 11359), (11360, 11361), (11362, 619), (11363, 7549), (11364, 637), (11367, 11368), (11369, 11370),
  (11371, 11372), (11373, 593), (11374, 625), (11375, 592), (11376, 594), (11378, 11379), (11381, 11382), (11390, 575),
  (11391, 576), (11392, 11393), (11394, 11395), (11396, 11397), (11398, 11399), (11400, 11401), (11402, 11403), (11404, 11405),
  (11406, 11407), (11408, 11409), (11410, 11411), (11412, 11413), (11414, 11415), (11416, 11417), (11418, 11419), (11420, 11421),
  (11422, 11423), (11424, 11425), (11426, 11427), (11428, 11429), (11430, 11431), (11432, 11433), (11434, 11435), (11436, 11437),
  (11438, 11439), (11440, 11441), (11442, 11443), (11444, 11445), (11446, 11447), (11448, 11449), (11450, 11451), (11452, 11453),
  (11454, 11455), (11456, 11457), (11458, 11459), (11460, 11461), (11462, 11463), (11464, 11465), (11466, 11467), (11468, 11469),
  (11470, 11471), (11472, 11473), (11474, 11475), (11476, 11477), (11478, 11479), (11480, 11481), (11482, 11483), (11484, 11485),
  (11486, 11487), (11488, 11489), (11490, 11491), (11499, 11500), (11501, 11502), (11506, 11507), (42560, 42561), (42562, 42563),
  (42564, 42565), (42566, 42567), (42568, 42569), (42570, 42571), (42572, 42573), (42574, 42575), (42576, 42577), (42578, 42579),
  (42580, 42581), (42582, 42583), (42584, 42585), (42586, 42587), (42588, 42589), (42590, 42591), (42592, 42593), (42594, 42595),
  (42596, 42597), (42598, 42599), (42600, 42601), (42602, 42603), (42604, 42605), (42624, 42625), (42626, 42627), (42628, 42629),
  (42630, 42631), (42632, 42633), (42634, 42635), (42636, 42637), (42638, 42639), (42640, 42641), (42642, 42643), (42644, 42645),
  (42646, 42647), (42648, 42649), (42650, 42651), (42786, 42787), (42788, 42789), (42790, 42791), (42792, 42793), (42794, 42795),
  (42796, 42797), (42798, 42799), (42802, 42803), (42804, 42805), (42806, 42807), (42808, 42809), (42810, 42811), (42812, 42813),
  (42814, 42815), (42816, 42817), (42818, 42819), (42820, 42821), (42822, 42823), (42824, 42825), (42826, 42827), (42828, 42829),
  (42830, 42831), (42832, 42833), (42834, 42835), (42836, 42837), (42838, 42839), (42840, 42841), (42842, 42843), (42844, 42845),
  (42846, 42847), (42848, 42849), (42850, 42851), (42852, 42853), (42854, 42855), (42856, 42857), (42858, 42859), (42860, 42861),
  (42862, 42863), (42873, 42874), (42875, 42876), (42877, 7545), (42878, 42879), (42880, 42881), (42882, 42883), (42884, 42885),
  (42886, 42887), (42891, 42892), (42893, 613), (42896, 42897), (42898, 42899), (42902, 42903), (42904, 42905), (42906, 42907),
  (42908, 42909), (42910, 42911), (42912, 42913), (42914, 42915), (42916, 42917), (42918, 42919), (42920, 42921), (42922, 614),
  (42923, 604), (42924, 609), (42925, 620), (42926, 618), (42928, 670), (42929, 647), (42930, 669), (42931, 43859),
  (42932, 42933), (42934, 42935), (42936, 42937), (42938, 42939), (42940, 42941), (42942, 42943), (42944, 42945), (42946, 42947),
  (42948, 42900), (42949, 642), (42950, 7566), (42951, 42952), (42953, 42954), (42960, 42961), (42966, 42967), (42968, 42969),
  (42997, 42998), (65313, 65345), (65314, 65346), (65315, 65347), (65316, 65348), (65317, 65349), (65318, 65350), (65319, 65351),
  (65320, 65352), (65321, 65353), (65322, 65354), (65323, 65355), (65324, 65356), (65325, 65357), (65326, 65358), (65327, 65359),
  (65328, 65360), (65329, 65361), (65330, 65362), (65331, 65363), (65332, 65364), (65333, 65365), (65334, 65366), (65335, 65367),
  (65336, 65368), (65337, 65369), (65338, 65370), (66560, 66600), (66561, 66601), (66562, 66602), (66563, 66603), (66564, 66604),
  (66565, 66605), (66566, 66606), (66567, 66607), (66568, 66608), (66569, 66609), (66570, 66610), (66571, 66611), (66572, 66612),
  (66573, 66613), (66574, 66614), (66575, 66615), (66576, 66616), (66577, 66617), (66578, 66618), (66579, 66619), (66580, 66620),
  (66581, 66621), (66582, 66622), (66583, 66623), (66584, 66624), (66585, 66625), (66586, 66626), (66587, 66627), (66588, 66628),
  (66589, 66629), (66590, 66630), (66591, 66631), (66592, 66632), (66593, 66633), (66594, 66634), (66595, 66635), (66596, 66636),
  (66597, 66637), (66598, 66638), (66599, 66639), (66736, 66776), (66737, 66777), (66738, 66778), (66739, 66779), (66740, 66780),
  (66741, 66781), (66742, 66782), (66743, 66783), (66744, 66784), (66745, 66785), (66746, 66786), (66747, 66787), (66748, 66788),
  (66749, 66789), (66750, 66790), (66751, 66791), (66752, 66792), (66753, 66793), (66754, 66794), (66755, 66795), (66756, 66796),
  (66757, 66797), (66758, 66798), (66759, 66799), (66760, 66800), (66761, 66801), (66762, 66802), (66763, 66803), (66764, 66804),
  (66765, 66805), (66766, 66806), (66767, 66807), (66768, 66808), (66769, 66809), (66770, 66810), (66771, 66811), (66928, 66967),
  (66929, 66968), (66930, 66969), (66931, 66970), (66932, 66971), (66933, 66972), (66934, 66973), (66935, 66974), (66936, 66975),
  (66937, 66976), (66938, 66977), (66940, 66979), (66941, 66980), (66942, 66981), (66943, 66982), (66944, 66983), (66945, 66984),
  (66946, 66985), (66947, 66986), (66948, 66987), (66949, 66988), (66950, 66989), (66951, 66990), (66952, 66991), (66953, 66992),
  (66954, 66993), (66956, 66995), (66957, 66996), (66958, 66997), (66959, 66998), (66960, 66999), (66961, 67000), (66962, 67001),
  (66964, 67003), (66965, 67004), (68736, 68800), (68737, 68801), (68738, 68802), (68739, 68803), (68740, 68804), (68741, 68805),
  (68742, 68806), (68743, 68807), (68744, 68808), (68745, 68809), (68746, 68810), (68747, 68811), (68748, 68812), (68749, 68813),
  (68750, 68814), (68751, 68815), (68752, 68816), (68753, 68817), (68754, 68818), (68755, 68819), (68756, 68820), (68757, 68821),
  (68758, 68822), (68759, 68823), (68760, 68824), (68761, 68825), (68762, 68826), (68763, 68827), (68764, 68828), (68765, 68829),
  (68766, 68830), (68767, 68831), (68768, 68832), (68769, 68833), (68770, 68834), (68771, 68835), (68772, 68836), (68773, 68837),
  (68774, 68838), (68775, 68839), (68776, 68840), (68777, 68841), (68778, 68842), (68779, 68843), (68780, 68844), (68781, 68845),
  (68782, 68846), (68783, 68847), (68784, 68848), (68785, 68849), (68786, 68850), (71840, 71872), (71841, 71873), (71842, 71874),
  (71843, 71875), (71844, 71876), (71845, 71877), (71846, 71878), (71847, 71879), (71848, 71880), (71849, 71881), (71850, 71882),
  (71851, 71883), (71852, 71884), (71853, 71885), (71854, 71886), (71855, 71887), (71856, 71888), (71857, 71889), (71858, 71890),
  (71859, 71891), (71860, 71892), (71861, 71893), (71862, 71894), (71863, 71895), (71864, 71896), (71865, 71897), (71866, 71898),
  (71867, 71899), (71868, 71900), (71869, 71901), (71870, 71902), (71871, 71903), (93760, 93792), (93761, 93793), (93762, 93794),
  (93763, 93795), (93764, 93796), (93765, 93797), (93766, 93798), (93767, 93799), (93768, 93800), (93769, 93801), (93770, 93802),
  (93771, 93803), (93772, 93804), (93773, 93805), (93774, 93806), (93775, 93807), (93776, 93808), (93777, 93809), (93778, 93810),
  (93779, 93811), (93780, 93812), (93781, 93813), (93782, 93814), (93783, 93815), (93784, 93816), (93785, 93817), (93786, 93818),
  (93787, 93819), (93788, 93820), (93789, 93821), (93790, 93822), (93791, 93823), (125184, 125218), (125185, 125219), (125186, 125220),
  (125187, 125221), (125188, 125222), (125189, 125223), (125190, 125224), (125191, 125225), (125192, 125226), (125193, 125227), (125194, 125228),
  (125195, 125229), (125196, 125230), (125197, 125231), (125198, 125232), (125199, 125233), (125200, 125234), (125201, 125235), (125202, 125236),
  (125203, 125237), (125204, 125238), (125205, 125239), (125206, 125240), (125207, 125241), (125208, 125242), (125209, 125243), (125210, 125244),
  (125211, 125245), (125212, 125246), (125213, 125247), (125214, 125248), (125215, 125249), (125216, 125250), (125217, 125251)]

/-- Simple lowercase of a character: ASCII directly, the table elsewhere. -/
def pyLower (c : Char) : Char :=
  let n := c.toNat
  if n < 128 then (if 65 ≤ n && n ≤ 90 then Char.ofNat (n + 32) else c)
  else
    match lowerTable.lookup n with
    | some m => Char.ofNat m
    | none => c

/-- `re._casefix._EXTRA_CASES`, the extra case equivalences `re.IGNORECASE`
adds beyond simple lowercasing (e.g. `i` ↔ dotless `ı`), with each member of
an equivalence class mapped to the least member: two characters match
case-insensitively exactly when lowercasing and then canonicalising them
gives the same character. -/
def canonTable : List (Nat × Nat) := [
  (305, 105), (383, 115), (953, 837), (956, 181), (963, 962), (976, 946), (977, 952), (981, 966),
  (982, 960), (1008, 954), (1009, 961), (1013, 949), (7296, 1074), (7297, 1076), (7298, 1086), (7299, 1089),
  (7300, 1090), (7301, 1090), (7302, 1098), (7303, 1123), (7835, 7777), (8126, 837), (8147, 912), (8163, 944),
  (42571, 7304), (64262, 64261)]

/-- Canonical representative of a lowercased character under the extra case
equivalences. -/
def canonCase (c : Char) : Char :=
  match canonTable.lookup c.toNat with
  | some m => Char.ofNat m
  | none => c

/-- The compiled form of `[A-Za-zÀ-ỹ]` under `re.IGNORECASE`
(`IN_UNI_IGNORE`): the engine lowercases the subject character and tests it
against the closure of the class under simple lowercasing and the extra case
equivalences; these are the codepoint ranges of that closure. -/
def letterFoldRanges : List (Nat × Nat) := [
  (97, 122), (181, 181), (215, 215), (223, 255), (257, 257), (259, 259), (261, 261), (263, 263),
  (265, 265), (267, 267), (269, 269), (271, 271), (273, 273), (275, 275), (277, 277), (279, 279),
  (281, 281), (283, 283), (285, 285), (287, 287), (289, 289), (291, 291), (293, 293), (295, 295),
  (297, 297), (299, 299), (301, 301), (303, 303), (305, 305), (307, 307), (309, 309), (311, 312),
  (314, 314), (316, 316), (318, 318), (320, 320), (322, 322), (324, 324), (326, 326), (328, 329),
  (331, 331), (333, 333), (335, 335), (337, 337), (339, 339), (341, 341), (343, 343), (345, 345),
  (347, 347), (349, 349), (351, 351), (353, 353), (355, 355), (357, 357), (359, 359), (361, 361),
  (363, 363), (365, 365), (367, 367), (369, 369), (371, 371), (373, 373), (375, 375), (378, 378),
  (380, 380), (382, 384), (387, 387), (389, 389), (392, 392), (396, 397), (402, 402), (405, 405),
  (409, 411), (414, 414), (417, 417), (419, 419), (421, 421), (424, 424), (426, 427), (429, 429),
  (432, 432), (436, 436), (438, 438), (441, 443), (445, 451), (454, 454), (457, 457), (460, 460),
  (462, 462), (464, 464), (466, 466), (468, 468), (470, 470), (472, 472), (474, 474), (476, 477),
  (479, 479), (481, 481), (483, 483), (485, 485), (487, 487), (489, 489), (491, 491), (493, 493),
  (495, 496), (499, 499), (501, 501), (505, 505), (507, 507), (509, 509), (511, 511), (513, 513),
  (515, 515), (517, 517), (519, 519), (521, 521), (523, 523), (525, 525), (527, 527), (529, 529),
  (531, 531), (533, 533), (535, 535), (537, 537), (539, 539), (541, 541), (543, 543), (545, 545),
  (547, 547), (549, 549), (551, 551), (553, 553), (555, 555), (557, 557), (559, 559), (561, 561),
  (563, 569), (572, 572), (575, 576), (578, 578), (583, 583), (585, 585), (587, 587), (589, 589),
  (591, 879), (881, 881), (883, 885), (887, 894), (896, 901), (903, 903), (907, 907), (909, 909),
  (912, 912), (930, 930), (940, 974), (976, 983), (985, 985), (987, 987), (989, 989), (991, 991),
  (993, 993), (995, 995), (997, 997), (999, 999), (1001, 1001), (1003, 1003), (1005, 1005), (1007, 1011),
  (1013, 1014), (1016, 1016), (1019, 1020), (1072, 1119), (1121, 1121), (1123, 1123), (1125, 1125), (1127, 1127),
  (1129, 1129), (1131, 1131), (1133, 1133), (1135, 1135), (1137, 1137), (1139, 1139), (1141, 1141), (1143, 1143),
  (1145, 1145), (1147, 1147), (1149, 1149), (1151, 1151), (1153, 1161), (1163, 1163), (1165, 1165), (1167, 1167),
  (1169, 1169), (1171, 1171), (1173, 1173), (1175, 1175), (1177, 1177), (1179, 1179), (1181, 1181), (1183, 1183),
  (1185, 1185), (1187, 1187), (1189, 1189), (1191, 1191), (1193, 1193), (1195, 1195), (1197, 1197), (1199, 1199),
  (1201, 1201), (1203, 1203), (1205, 1205), (1207, 1207), (1209, 1209), (1211, 1211), (1213, 1213), (1215, 1215),
  (1218, 1218), (1220, 1220), (1222, 1222), (1224, 1224), (1226, 1226), (1228, 1228), (1230, 1231), (1233, 1233),
  (1235, 1235), (1237, 1237), (1239, 1239), (1241, 1241), (1243, 1243), (1245, 1245), (1247, 1247), (1249, 1249),
  (1251, 1251), (1253, 1253), (1255, 1255), (1257, 1257), (1259, 1259), (1261, 1261), (1263, 1263), (1265, 1265),
  (1267, 1267), (1269, 1269), (1271, 1271), (1273, 1273), (1275, 1275), (1277, 1277), (1279, 1279), (1281, 1281),
  (1283, 1283), (1285, 1285), (1287, 1287), (1289, 1289), (1291, 1291), (1293, 1293), (1295, 1295), (1297, 1297),
  (1299, 1299), (1301, 1301), (1303, 1303), (1305, 1305), (1307, 1307), (1309, 1309), (1311, 1311), (1313, 1313),
  (1315, 1315), (1317, 1317), (1319, 1319), (1321, 1321), (1323, 1323), (1325, 1325), (1327, 1328), (1367, 4255),
  (4294, 4294), (4296, 4300), (4302, 5023), (5110, 7311), (7355, 7356), (7360, 7679), (7681, 7681), (7683, 7683),
  (7685, 7685), (7687, 7687), (7689, 7689), (7691, 7691), (7693, 7693), (7695, 7695), (7697, 7697), (7699, 7699),
  (7701, 7701), (7703, 7703), (7705, 7705), (7707, 7707), (7709, 7709), (7711, 7711), (7713, 7713), (7715, 7715),
  (7717, 7717), (7719, 7719), (7721, 7721), (7723, 7723), (7725, 7725), (7727, 7727), (7729, 7729), (7731, 7731),
  (7733, 7733), (7735, 7735), (7737, 7737), (7739, 7739), (7741, 7741), (7743, 7743), (7745, 7745), (7747, 7747),
  (7749, 7749), (7751, 7751), (7753, 7753), (7755, 7755), (7757, 7757), (7759, 7759), (7761, 7761), (7763, 7763),
  (7765, 7765), (7767, 7767), (7769, 7769), (7771, 7771), (7773, 7773), (7775, 7775), (7777, 7777), (7779, 7779),
  (7781, 7781), (7783, 7783), (7785, 7785), (7787, 7787), (7789, 7789), (7791, 7791), (7793, 7793), (7795, 7795),
  (7797, 7797), (7799, 7799), (7801, 7801), (7803, 7803), (7805, 7805), (7807, 7807), (7809, 7809), (7811, 7811),
  (7813, 7813), (7815, 7815), (7817, 7817), (7819, 7819), (7821, 7821), (7823, 7823), (7825, 7825), (7827, 7827),
  (7829, 7837), (7839, 7839), (7841, 7841), (7843, 7843), (7845, 7845), (7847, 7847), (7849, 7849), (7851, 7851),
  (7853, 7853), (7855, 7855), (7857, 7857), (7859, 7859), (7861, 7861), (7863, 7863), (7865, 7865), (7867, 7867),
  (7869, 7869), (7871, 7871), (7873, 7873), (7875, 7875), (7877, 7877), (7879, 7879), (7881, 7881), (7883, 7883),
  (7885, 7885), (7887, 7887), (7889, 7889), (7891, 7891), (7893, 7893), (7895, 7895), (7897, 7897), (7899, 7899),
  (7901, 7901), (7903, 7903), (7905, 7905), (7907, 7907), (7909, 7909), (7911, 7911), (7913, 7913), (7915, 7915),
  (7917, 7917), (7919, 7919), (7921, 7921), (7923, 7923), (7925, 7925), (7927, 7927), (7929, 7929), (8126, 8126),
  (8147, 8147), (8163, 8163), (11365, 11366), (11520, 11557), (11559, 11559), (11565, 11565), (42571, 42571), (43888, 43967)]


/-- Membership of a codepoint in a list of inclusive ranges. -/
def inRanges (rs : List (Nat × Nat)) (n : Nat) : Bool :=
  rs.any fun p => p.1 ≤ n && n ≤ p.2

/-- The letter-class test a lookaround of the program's patterns performs:
with `re.IGNORECASE` (`ci = true`) the subject character is lowercased and
tested against the closed class; without it, the class is tested as
written. -/
def letterTest (ci : Bool) (c : Char) : Bool :=
  if ci then inRanges letterFoldRanges (pyLower c).toNat else letterClass c

structure ReBranch where
  ci : Bool
  guard : Bool
  w1 : List Char
  w2 : Option (List Char)
deriving DecidableEq

/-- Case folding applied to the subject character before comparison under
`re.IGNORECASE`: simple lowercase, then the canonical representative of the
extra case equivalences.  A branch's words are stored in this folded form
(the seeded words, being lowercase representatives, are their own folds). -/
def foldChar (ci : Bool) (c : Char) : Char :=
  if ci then canonCase (pyLower c) else c

/-- Match a literal word at the head of the subject, returning the rest. -/
def matchWord (ci : Bool) : List Char → List Char → Option (List Char)
  | [], s => some s
  | p :: ps, c :: cs => if foldChar ci c = p then matchWord ci ps cs else none
  | _ :: _, [] => none

def prevIsLetter (ci : Bool) : Option Char → Bool
  | some c => letterTest ci c
  | none => false

def headIsLetter (ci : Bool) : List Char → Bool
  | c :: _ => letterTest ci c
  | [] => false

/-- Match one branch at the current position (`prev` is the character before
the position, for the lookbehind); returns the length of the matched text. -/
def matchBranch (b : ReBranch) (prev : Option Char) (s : List Char) : Option Nat :=
  if b.guard && prevIsLetter b.ci prev then none
  else
    match matchWord b.ci b.w1 s with
    | none => none
    | some s1 =>
      match b.w2 with
      | none => if b.guard && headIsLetter b.ci s1 then none else some b.w1.length
      | some w2 =>
        let k := (s1.takeWhile pyIsSpace).length
        match matchWord b.ci w2 (s1.drop k) with
        | none => none
        | some s3 =>
          if b.guard && headIsLetter b.ci s3 then none
          else some (b.w1.length + k + w2.length)

/-- Try the branches of an alternation in order (Python's preference). -/
def tryMatch : List ReBranch → Option Char → List Char → Option Nat
  | [], _, _ => none
  | b :: bs, prev, s =>
    match matchBranch b prev s with
    | some n => some n
    | none => tryMatch bs prev s

/-- The `re.sub` scan: at each position try the pattern; on failure copy one
character, on success emit the replacement and resume after the matched text
(whose last character becomes the lookbehind context).  `fuel` bounds the
recursion; every pattern used has a nonempty first word, so each step
consumes at least one character and `fuel = s.length` suffices. -/
def subLoop (P : List ReBranch) (repl : List Char) :
    Nat → Option Char → List Char → List Char
  | 0, _, s => s
  | _ + 1, _, [] => []
  | fuel + 1, prev, c :: rest =>
    match tryMatch P prev (c :: rest) with
    | none => c :: subLoop P repl fuel (some c) rest
    | some n =>
      repl ++ subLoop P repl fuel (some (((c :: rest).take n).getLastD c))
        ((c :: rest).drop n)

/-- `re.sub(pattern, repl, s)` for a supported pattern. -/
def reSub (P : List ReBranch) (repl : List Char) (s : List Char) : List Char :=
  subLoop P repl s.length none s

/-- No position of `s` (whose left context starts as `prev`) matches `P`. -/
def noMatchB (P : List ReBranch) : Option Char → List Char → Bool
  | _, [] => true
  | prev, c :: rest => (tryMatch P prev (c :: rest)).isNone && noMatchB P (some c) rest

/-- The scan of `P` failed at every position of `u`, where `tail` is the rest
of the subject after `u` and `prev` the context before `u`. -/
def noMatchUpto (P : List ReBranch) : Option Char → List Char → List Char → Prop
  | _, [], _ => True
  | prev, c :: u, tail =>
    tryMatch P prev (c :: (u ++ tail)) = none ∧ noMatchUpto P (some c) u tail

/-- `r` occurs as a contiguous segment of `l`. -/
def isSeg (r l : List Char) : Bool :=
  (List.range (l.length + 1)).any fun i => (l.drop i).take r.length == r

/-- Pattern of seed rule 1:
`(?i)(?<![A-Za-zÀ-ỹ])hình\s*ảnh(?![A-Za-zÀ-ỹ])|(?<![A-Za-zÀ-ỹ])hinh\s*anh(?![A-Za-zÀ-ỹ])`. -/
def hinhAnhPattern : List ReBranch :=
  [⟨true, true, "hình".data, some "ảnh".data⟩,
   ⟨true, true, "hinh".data, some "anh".data⟩]

/-- Pattern of seed rule 2:
`(?i)(?<![A-Za-zÀ-ỹ])nút(?![A-Za-zÀ-ỹ])|(?<![A-Za-zÀ-ỹ])nut(?![A-Za-zÀ-ỹ])`. -/
def nutPattern : List ReBranch :=
  [⟨true, true, "nút".data, none⟩,
   ⟨true, true, "nut".data, none⟩]

/-- Pattern of seed rule 3: `(?i)(?<![A-Za-zÀ-ỹ])thùng\s*chứa(?![A-Za-zÀ-ỹ])|…`
(three branches). -/
def thungChuaPattern : List ReBranch :=
  [⟨true, true, "thùng".data, some "chứa".data⟩,
   ⟨true, true, "thùng".data, some "chưa".data⟩,
   ⟨true, true, "thung".data, some "chua".data⟩]

/-- `apply_glossary` specialised to the three enabled seeded rules: the three
`re.sub`s composed in list order. -/
def apply_glossary_seed (line : List Char) : List Char :=
  reSub thungChuaPattern "container".data
    (reSub nutPattern "node".data
      (reSub hinhAnhPattern "Image".data line))

/-- Compilation of the seeded patterns (identified by their source text). -/
def compile_seed_pattern (pat : String) : Option (List ReBranch) :=
  if pat = (default_seed_rules.head?.elim "" GlossaryRule.pattern) then some hinhAnhPattern
  else if pat = ((default_seed_rules.drop 1).head?.elim "" GlossaryRule.pattern) then some nutPattern
  else if pat = ((default_seed_rules.drop 2).head?.elim "" GlossaryRule.pattern) then some thungChuaPattern
  else none

/-- The `re.sub` interpretation for rules carrying a seeded pattern. -/
def seed_rule_sub (r : GlossaryRule) (line : List Char) : Option (List Char) :=
  (compile_seed_pattern r.pattern).bind fun P =>
    r.replace.map fun rep => reSub P rep.data line

/-- A literal (metacharacter-free) pattern: a single unguarded branch. -/
def literalPattern (p : List Char) : List ReBranch :=
  [⟨false, false, p, none⟩]

/-- The `re.sub` interpretation for rules with literal patterns. -/
def literal_rule_sub (r : GlossaryRule) (line : List Char) : Option (List Char) :=
  r.replace.map fun rep => reSub (literalPattern r.pattern.data) rep.data line

/-!
## Line-splitting toolkit
-/

theorem psl_crlf (rest : List Char) :
    pySplitlines ('\r' :: '\n' :: rest) = [] :: pySplitlines rest := rfl

theorem psl_break (c : Char) (rest : List Char) (h : isLineBreak c = true)
    (hnot : ¬(c = '\r' ∧ ∃ r, rest = '\n' :: r)) :
    pySplitlines (c :: rest) = [] :: pySplitlines rest := by
  rw [pySplitlines.eq_def]
  split
  · next _ heq => exact absurd heq (by simp)
  · next _ r heq =>
    injection heq with hc hrest
    exact absurd ⟨hc, _, hrest⟩ hnot
  · next _ c' r' hno heq =>
    injection heq with hc hrest
    subst hc; subst hrest
    rw [if_pos h]

theorem psl_nobreak (c : Char) (rest : List Char) (h : isLineBreak c = false) :
    pySplitlines (c :: rest) =
      (match pySplitlines rest with
       | [] => [[c]]
       | l :: ls => (c :: l) :: ls) := by
  rw [pySplitlines.eq_def]
  split
  · next _ heq => exact absurd heq (by simp)
  · next _ r heq =>
    injection heq with hc hrest
    subst hc
    exact absurd h (by decide)
  · next _ c' r' hno heq =>
    injection heq with hc hrest
    subst hc; subst hrest
    rw [if_neg (by simp [h])]

/-- Lines produced by `splitlines` contain no line-boundary characters. -/
theorem psl_no_break_chars (s : List Char) :
    ∀ l ∈ pySplitlines s, ∀ c ∈ l, isLineBreak c = false := by
  induction s using pySplitlines.induct with
  | case1 => simp [pySplitlines]
  | case2 rest ih =>
    rw [psl_crlf]
    intro l hl
    rcases List.mem_cons.mp hl with h1 | h1
    · subst h1; intro c hc; simp at hc
    · exact ih l h1
  | case3 c0 rest hno hbr ih =>
    rw [psl_break c0 rest hbr (by rintro ⟨rfl, r, rfl⟩; exact hno r rfl rfl)]
    intro l hl
    rcases List.mem_cons.mp hl with h1 | h1
    · subst h1; intro c hc; simp at hc
    · exact ih l h1
  | case4 c0 rest hno hbr hres ih =>
    rw [psl_nobreak c0 rest (by simpa using hbr), hres]
    intro l hl
    rcases List.mem_cons.mp hl with h1 | h1
    · subst h1
      intro c hc
      rcases List.mem_cons.mp hc with h2 | h2
      · subst h2; simpa using hbr
      · simp at h2
    · simp at h1
  | case5 c0 rest hno hbr l0 ls0 hres ih =>
    rw [psl_nobreak c0 rest (by simpa using hbr), hres]
    intro l hl
    rcases List.mem_cons.mp hl with h1 | h1
    · subst h1
      intro c hc
      rcases List.mem_cons.mp hc with h2 | h2
      · subst h2; simpa using hbr
      · exact ih l0 (by rw [hres]; exact List.mem_cons_self _ _) c h2
    · exact ih l (by rw [hres]; exact List.mem_cons_of_mem _ h1)

/-- `splitlines` of a nonempty text is nonempty. -/
theorem psl_ne_nil (s : List Char) (h : s ≠ []) : pySplitlines s ≠ [] := by
  induction s using pySplitlines.induct with
  | case1 => exact absurd rfl h
  | case2 rest ih => rw [psl_crlf]; simp
  | case3 c0 rest hno hbr ih =>
    rw [psl_break c0 rest hbr (by rintro ⟨rfl, r, rfl⟩; exact hno r rfl rfl)]; simp
  | case4 c0 rest hno hbr hres ih =>
    rw [psl_nobreak c0 rest (by simpa using hbr), hres]; simp
  | case5 c0 rest hno hbr l0 ls0 hres ih =>
    rw [psl_nobreak c0 rest (by simpa using hbr), hres]; simp

/-- `splitlines` of a break-free text. -/
theorem psl_of_no_break (l : List Char) (h : ∀ c ∈ l, isLineBreak c = false) :
    pySplitlines l = if l.isEmpty then [] else [l] := by
  induction l with
  | nil => rfl
  | cons c rest ih =>
    have hc : isLineBreak c = false := h c (List.mem_cons_self _ _)
    rw [psl_nobreak c rest hc, ih (fun x hx => h x (List.mem_cons_of_mem _ hx))]
    cases rest <;> simp

/-- Splitting a break-free line glued to `'\n' :: t` peels off that line. -/
theorem psl_line_append (l t : List Char) (h : ∀ c ∈ l, isLineBreak c = false) :
    pySplitlines (l ++ '\n' :: t) = l :: pySplitlines t := by
  induction l with
  | nil =>
    rw [List.nil_append]
    rw [psl_break '\n' t (by decide) (by rintro ⟨h1, _⟩; exact absurd h1 (by decide))]
  | cons c rest ih =>
    have hc : isLineBreak c = false := h c (List.mem_cons_self _ _)
    rw [List.cons_append, psl_nobreak c (rest ++ '\n' :: t) hc,
      ih (fun x hx => h x (List.mem_cons_of_mem _ hx))]

theorem jn_cons (l : List Char) (ls : List (List Char)) (h : ls ≠ []) :
    joinNl (l :: ls) = l ++ '\n' :: joinNl ls := by
  cases ls with
  | nil => exact absurd rfl h
  | cons l2 ls2 => rfl

theorem getLast?_cons_ne {α : Type} (a : α) (t : List α) (h : t ≠ []) :
    (a :: t).getLast? = t.getLast? := by
  cases t with
  | nil => exact absurd rfl h
  | cons b r => exact List.getLast?_cons_cons

/-- Splitting the rejoined line list: all lines come back, except that a
trailing empty line is absorbed by its separator. -/
theorem psl_joinNl (L : List (List Char))
    (h : ∀ l ∈ L, ∀ c ∈ l, isLineBreak c = false) :
    pySplitlines (joinNl L) = if L.getLast? = some [] then L.dropLast else L := by
  induction L with
  | nil => simp [joinNl]; rfl
  | cons l ls ih =>
    cases ls with
    | nil =>
      have h1 : joinNl [l] = l := rfl
      rw [h1, psl_of_no_break l (h l (List.mem_cons_self _ _))]
      cases l <;> simp
    | cons l2 ls2 =>
      rw [jn_cons l (l2 :: ls2) (by simp),
        psl_line_append l (joinNl (l2 :: ls2)) (h l (List.mem_cons_self _ _)),
        ih (fun x hx => h x (List.mem_cons_of_mem _ hx))]
      by_cases hc : (l2 :: ls2).getLast? = some []
      · rw [if_pos hc, if_pos (by rw [getLast?_cons_ne l (l2 :: ls2) (by simp)]; exact hc)]
        rfl
      · rw [if_neg hc, if_neg (by rw [getLast?_cons_ne l (l2 :: ls2) (by simp)]; exact hc)]

/-- If the text is nonempty and does not end with a line boundary, the last
produced line is nonempty. -/
theorem psl_last_nonempty (s : List Char) (hs : s ≠ [])
    (hlast : ∀ c, s.getLast? = some c → isLineBreak c = false) :
    ∃ l, (pySplitlines s).getLast? = some l ∧ l ≠ [] := by
  induction s using pySplitlines.induct with
  | case1 => exact absurd rfl hs
  | case2 rest ih =>
    cases hrest : rest with
    | nil =>
      subst hrest
      exact absurd (hlast '\n' rfl) (by decide)
    | cons r0 rr =>
      subst hrest
      have hlast2 : ∀ c, (r0 :: rr).getLast? = some c → isLineBreak c = false := by
        intro c hc
        apply hlast
        rw [getLast?_cons_ne '\r' ('\n' :: r0 :: rr) (by simp),
          getLast?_cons_ne '\n' (r0 :: rr) (by simp)]
        exact hc
      obtain ⟨l, hl, hne⟩ := ih (by simp) hlast2
      refine ⟨l, ?_, hne⟩
      rw [psl_crlf, getLast?_cons_ne _ _ (psl_ne_nil _ (by simp))]
      exact hl
  | case3 c0 rest hno hbr ih =>
    have heq := psl_break c0 rest hbr (by rintro ⟨rfl, r, rfl⟩; exact hno r rfl rfl)
    cases hrest : rest with
    | nil =>
      subst hrest
      exact absurd (hlast c0 rfl) (by simp [hbr])
    | cons r0 rr =>
      subst hrest
      have hlast2 : ∀ c, (r0 :: rr).getLast? = some c → isLineBreak c = false := by
        intro c hc
        apply hlast
        rw [getLast?_cons_ne c0 (r0 :: rr) (by simp)]
        exact hc
      obtain ⟨l, hl, hne⟩ := ih (by simp) hlast2
      refine ⟨l, ?_, hne⟩
      rw [heq, getLast?_cons_ne _ _ (psl_ne_nil _ (by simp))]
      exact hl
  | case4 c0 rest hno hbr hres ih =>
    rw [psl_nobreak c0 rest (by simpa using hbr), hres]
    exact ⟨[c0], rfl, by simp⟩
  | case5 c0 rest hno hbr l0 ls0 hres ih =>
    rw [psl_nobreak c0 rest (by simpa using hbr), hres]
    have hrest : rest ≠ [] := by
      intro hr
      rw [hr] at hres
      simp [pySplitlines] at hres
    have hlast2 : ∀ c, rest.getLast? = some c → isLineBreak c = false := by
      intro c hc
      apply hlast
      rw [getLast?_cons_ne c0 rest hrest]
      exact hc
    obtain ⟨l, hl, hne⟩ := ih hrest hlast2
    rw [hres] at hl
    cases hls : ls0 with
    | nil =>
      subst hls
      refine ⟨c0 :: l0, rfl, by simp⟩
    | cons y ys =>
      subst hls
      refine ⟨l, ?_, hne⟩
      rw [getLast?_cons_ne _ _ (by simp)]
      rw [getLast?_cons_ne _ _ (by simp)] at hl
      exact hl

theorem joinNl_getLast (L : List (List Char)) (l : List Char)
    (hL : L.getLast? = some l) (hl : l ≠ []) :
    (joinNl L).getLast? = l.getLast? := by
  induction L with
  | nil => simp at hL
  | cons x ls ih =>
    cases ls with
    | nil =>
      simp only [List.getLast?_singleton, Option.some.injEq] at hL
      subst hL
      rfl
    | cons y ys =>
      rw [getLast?_cons_ne x (y :: ys) (by simp)] at hL
      have hIH := ih hL
      have hjoin : joinNl (y :: ys) ≠ [] := by
        intro hz
        rw [hz] at hIH
        exact hl (List.getLast?_eq_none_iff.mp hIH.symm)
      rw [jn_cons x (y :: ys) (by simp), List.getLast?_append_cons,
        getLast?_cons_ne '\n' _ hjoin]
      exact hIH

/-- C1 (counterexample): on a present-but-malformed glossary file, `load`
does not install the seeded defaults and does not persist anything — it sets
the in-memory rule list to the empty list and leaves storage untouched. -/
theorem claim_C1_counterexample :
    GlossaryManager.load .malformed ≠
      (default_seed_rules, .wellformed default_seed_rules) ∧
    GlossaryManager.load .malformed = ([], .malformed) := by
  refine ⟨fun h => ?_, rfl⟩
  have h1 : ([] : List GlossaryRule) = default_seed_rules :=
    congrArg Prod.fst h
  simp [default_seed_rules] at h1

/-- C1 (amended): `load` installs and persists the seeded defaults only when
storage is absent; a present but unreadable/malformed file yields the empty
in-memory rule list with nothing persisted; a well-formed file loads as-is. -/
theorem claim_C1_load_behaviour :
    GlossaryManager.load .absent =
      (default_seed_rules, .wellformed default_seed_rules) ∧
    GlossaryManager.load .malformed = ([], .malformed) ∧
    ∀ rules, GlossaryManager.load (.wellformed rules) =
      (rules, .wellformed rules) :=
  ⟨rfl, rfl, fun _ => rfl⟩

/-- C2: an index line, timecode line, or blank line of the input appears
unchanged at the same position in the transformed line list (which
`process_srt_text` joins in order), whatever the glossary does to dialogue
lines. -/
theorem claim_C2_structural_preserved
    (f : List Char → List Char) (content : List Char) (i : Nat)
    (line : List Char)
    (hline : (pySplitlines content)[i]? = some line)
    (hstruct : (is_index_line line || is_timecode_line line ||
      (pyStrip line).isEmpty) = true) :
    ((pySplitlines content).map (transform_line f))[i]? = some line := by
  rw [List.getElem?_map, hline]
  have hs : isStructural line = true := hstruct
  simp [transform_line, hs]

/-- Witness for C2 at a concrete three-line document and a glossary that
erases every dialogue line. -/
theorem claim_C2_witness :
    (pySplitlines "1\n00:00:01,000 --> 00:00:02,000\nnút".data)[1]? =
      some "00:00:01,000 --> 00:00:02,000".data ∧
    (is_index_line "00:00:01,000 --> 00:00:02,000".data ||
      is_timecode_line "00:00:01,000 --> 00:00:02,000".data ||
      (pyStrip "00:00:01,000 --> 00:00:02,000".data).isEmpty) = true ∧
    ((pySplitlines "1\n00:00:01,000 --> 00:00:02,000\nnút".data).map
      (transform_line (fun _ => [])))[1]? =
      some "00:00:01,000 --> 00:00:02,000".data :=
  ⟨by decide, by decide,
    claim_C2_structural_preserved (fun _ => []) _ 1 _ (by decide) (by decide)⟩

/-- C4: `apply_glossary` folds the rules left to right, each rule's output
feeding the next (splitting the list anywhere factors the fold), and on the
literal rules `a→b`, `b→c` a line containing `a` comes out containing `c`,
not `b`. -/
theorem claim_C4_rules_compose :
    (∀ sub rules1 rules2 (line : List Char),
      apply_glossary sub (rules1 ++ rules2) line =
        apply_glossary sub rules2 (apply_glossary sub rules1 line)) ∧
    apply_glossary literal_rule_sub
      [⟨"a", some "b", true, ""⟩, ⟨"b", some "c", true, ""⟩] "xay".data =
      "xcy".data ∧
    'c' ∈ apply_glossary literal_rule_sub
      [⟨"a", some "b", true, ""⟩, ⟨"b", some "c", true, ""⟩] "xay".data ∧
    'b' ∉ apply_glossary literal_rule_sub
      [⟨"a", some "b", true, ""⟩, ⟨"b", some "c", true, ""⟩] "xay".data := by
  refine ⟨fun sub r1 r2 line => ?_, by decide, by decide, by decide⟩
  simp [apply_glossary, List.foldl_append]

/-- C5: a rule whose `re.sub` raises (`sub … = none`) at its turn is skipped
— the line passes through it unchanged, all remaining rules still run, and
`apply_glossary` (a total function) surfaces no error. -/
theorem claim_C5_invalid_rule_skipped
    (sub : GlossaryRule → List Char → Option (List Char))
    (rules1 rules2 : List GlossaryRule) (r : GlossaryRule) (line : List Char)
    (hfail : sub r (apply_glossary sub rules1 line) = none) :
    apply_glossary sub (rules1 ++ r :: rules2) line =
      apply_glossary sub rules2 (apply_glossary sub rules1 line) := by
  simp only [apply_glossary, List.foldl_append, List.foldl_cons]
  have hstep : glossaryStep sub (List.foldl (glossaryStep sub) line rules1) r =
      List.foldl (glossaryStep sub) line rules1 := by
    simp only [apply_glossary] at hfail
    simp [glossaryStep, hfail]
  rw [hstep]

/-- Witness for C5: an interpretation on which every substitution raises. -/
theorem claim_C5_witness :
    ((fun (_ : GlossaryRule) (_ : List Char) => (none : Option (List Char)))
      ⟨"(", some "x", true, ""⟩
      (apply_glossary (fun _ _ => none) [] "q".data) = none) ∧
    apply_glossary (fun _ _ => none)
      ([] ++ (⟨"(", some "x", true, ""⟩ : GlossaryRule) ::
        [⟨"a", some "b", true, ""⟩]) "q".data =
      apply_glossary (fun _ _ => none) [⟨"a", some "b", true, ""⟩]
        (apply_glossary (fun _ _ => none) [] "q".data) :=
  ⟨rfl, claim_C5_invalid_rule_skipped (fun _ _ => none) [] _ _ _ rfl⟩

/-- C7 (counterexample): a directory entry named `A.SRT` has the
case-insensitive `.srt` extension, yet the enumeration (pathlib's
case-sensitive `*.srt` glob on POSIX) does not yield it. -/
theorem claim_C7_counterexample :
    iter_srt_files (.dir [([], "A.SRT".data)]) true = [] ∧
    asciiLower (pathSuffix "A.SRT".data) = ".srt".data := by
  constructor
  · decide
  · decide

/-- C7 (amended): a root that is itself a file is the sole candidate exactly
when its suffix lowercases to `.srt`; under a directory root the candidates
are the entries matching the case-sensitive glob `*.srt` — all of them when
recursive, else the direct children only. -/
theorem claim_C7_enumeration :
    (∀ name recursive, iter_srt_files (.file name) recursive =
      if asciiLower (pathSuffix name) = ".srt".data then [([], name)] else []) ∧
    (∀ entries e, (e ∈ iter_srt_files (.dir entries) true ↔
        e ∈ entries ∧ globSrt e.2 = true) ∧
      (e ∈ iter_srt_files (.dir entries) false ↔
        e ∈ entries ∧ e.1 = [] ∧ globSrt e.2 = true)) := by
  refine ⟨fun name r => rfl, fun entries e => ⟨?_, ?_⟩⟩
  · simp [iter_srt_files, List.mem_filter]
  · simp [iter_srt_files, List.mem_filter]

/-!
## Claims C6, C8, C10
-/

theorem bakPath_ne (p : String) : bakPath p ≠ p := by
  intro h
  have h2 := congrArg String.length h
  have h4 : (".bak" : String).length = 4 := rfl
  rw [bakPath, String.length_append, h4] at h2
  omega

/-- C6: with no sidecar present, `write_backup` copies the file's current
bytes to the sidecar; a second call — even after the file changed — is a
no-op, so the sidecar keeps the content from the first call. -/
theorem claim_C6_backup_idempotent (fs : FS) (p : String) (d d2 : FileData)
    (hnob : fs.pathExists (bakPath p) = false)
    (hread : fs.read p = some d)
    (hok : bakPath p ∉ fs.writeFail) :
    ∃ fs1, write_backup fs p = some fs1 ∧
      fs1.read (bakPath p) = some d ∧
      write_backup (fs1.setFile p d2) p = some (fs1.setFile p d2) ∧
      (fs1.setFile p d2).read (bakPath p) = some d := by
  have hbeq : (bakPath p == p) = false := beq_eq_false_iff_ne.mpr (bakPath_ne p)
  refine ⟨⟨(bakPath p, d) :: fs.files, fs.writeFail⟩, ?_, ?_, ?_, ?_⟩
  · simp only [write_backup, hnob, Bool.false_eq_true, if_false, hread,
      FS.write, if_neg hok]
  · simp [FS.read, List.lookup]
  · have hex : (FS.setFile ⟨(bakPath p, d) :: fs.files, fs.writeFail⟩ p d2).pathExists
        (bakPath p) = true := by
      simp [FS.setFile, FS.pathExists, FS.read, List.lookup, hbeq]
    simp only [write_backup, hex, if_true]
  · simp [FS.setFile, FS.read, List.lookup, hbeq]

/-- Witness for C6 on a one-file filesystem. -/
theorem claim_C6_witness :
    (FS.pathExists ⟨[("a.srt", .text "x".data)], []⟩ (bakPath "a.srt") = false) ∧
    (FS.read ⟨[("a.srt", .text "x".data)], []⟩ "a.srt" = some (.text "x".data)) ∧
    (bakPath "a.srt" ∉ (FS.mk [("a.srt", .text "x".data)] []).writeFail) ∧
    ∃ fs1, write_backup ⟨[("a.srt", .text "x".data)], []⟩ "a.srt" = some fs1 ∧
      fs1.read (bakPath "a.srt") = some (.text "x".data) ∧
      write_backup (fs1.setFile "a.srt" (.text "y".data)) "a.srt" =
        some (fs1.setFile "a.srt" (.text "y".data)) ∧
      (fs1.setFile "a.srt" (.text "y".data)).read (bakPath "a.srt") =
        some (.text "x".data) :=
  ⟨by decide, by decide, by decide,
    claim_C6_backup_idempotent _ _ _ _ (by decide) (by decide) (by decide)⟩

/-- C8: the worker records one outcome per file no matter what happens (the
batch never aborts, and the summary counts every file); a file whose backup
raises is recorded as an error with the filesystem untouched (no overwrite);
a file that fails to decode likewise. -/
theorem claim_C8_batch_error_isolation :
    (∀ f dryrun backup fs files,
      (worker_run f dryrun backup fs files).2.length = files.length) ∧
    (∀ f fs p rest original,
      detect_encoding fs p = some original →
      process_srt_text f original ≠ original →
      write_backup fs p = none →
      worker_step f false true fs p = (fs, .error) ∧
      worker_run f false true fs (p :: rest) =
        ((worker_run f false true fs rest).1,
          .error :: (worker_run f false true fs rest).2)) ∧
    (∀ f dryrun backup fs p rest,
      detect_encoding fs p = none →
      worker_run f dryrun backup fs (p :: rest) =
        ((worker_run f dryrun backup fs rest).1,
          .error :: (worker_run f dryrun backup fs rest).2)) := by
  refine ⟨fun f dryrun backup fs files => ?_, ?_, ?_⟩
  · induction files generalizing fs with
    | nil => rfl
    | cons p rest ih => simp [worker_run, ih]
  · intro f fs p rest original hdet hne hbak
    have hstep : worker_step f false true fs p = (fs, .error) := by
      unfold worker_step
      rw [hdet]
      simp only [if_pos hne, Bool.false_eq_true, if_false, if_true, hbak]
    exact ⟨hstep, by simp [worker_run, hstep]⟩
  · intro f dryrun backup fs p rest hdet
    have hstep : worker_step f dryrun backup fs p = (fs, .error) := by
      unfold worker_step
      rw [hdet]
    simp [worker_run, hstep]

/-- Witness for C8: a file whose sidecar write fails; the original survives,
the outcome is an error, the rest of the batch still runs. -/
theorem claim_C8_witness :
    (detect_encoding ⟨[("a.srt", .text "x\r\ny".data)], ["a.srt.bak"]⟩ "a.srt" =
      some "x\r\ny".data) ∧
    (process_srt_text (fun l => l) "x\r\ny".data ≠ "x\r\ny".data) ∧
    (write_backup ⟨[("a.srt", .text "x\r\ny".data)], ["a.srt.bak"]⟩ "a.srt" =
      none) ∧
    (worker_step (fun l => l) false true
        ⟨[("a.srt", .text "x\r\ny".data)], ["a.srt.bak"]⟩ "a.srt" =
      (⟨[("a.srt", .text "x\r\ny".data)], ["a.srt.bak"]⟩, .error) ∧
    worker_run (fun l => l) false true
        ⟨[("a.srt", .text "x\r\ny".data)], ["a.srt.bak"]⟩ ["a.srt"] =
      ((worker_run (fun l => l) false true
          ⟨[("a.srt", .text "x\r\ny".data)], ["a.srt.bak"]⟩ []).1,
        .error :: (worker_run (fun l => l) false true
          ⟨[("a.srt", .text "x\r\ny".data)], ["a.srt.bak"]⟩ []).2)) :=
  ⟨by decide, by decide, by decide,
    claim_C8_batch_error_isolation.2.1 (fun l => l)
      ⟨[("a.srt", FileData.text "x\r\ny".data)], ["a.srt.bak"]⟩ "a.srt" []
      ("x\r\ny".data) (by decide) (by decide) (by decide)⟩

theorem getLast?_map_eq {α β : Type} (g : α → β) (L : List α) :
    (L.map g).getLast? = L.getLast?.map g := by
  induction L with
  | nil => rfl
  | cons x ls ih =>
    cases ls with
    | nil => rfl
    | cons y ys =>
      rw [List.map_cons, getLast?_cons_ne (g x) _ (by simp),
        getLast?_cons_ne x (y :: ys) (by simp)]
      exact ih

theorem mem_of_getLast?_eq {α : Type} (L : List α) (a : α)
    (h : L.getLast? = some a) : a ∈ L := by
  induction L with
  | nil => simp at h
  | cons x ls ih =>
    cases ls with
    | nil =>
      simp only [List.getLast?_singleton, Option.some.injEq] at h
      subst h
      exact List.mem_cons_self _ _
    | cons y ys =>
      rw [getLast?_cons_ne x (y :: ys) (by simp)] at h
      exact List.mem_cons_of_mem _ (ih h)

/-- C3 (counterexample): with the empty rule set, an input ending in a lone
CR — a line terminator — transforms to output ending in no terminator at
all: the claimed iff between input and output trailing terminators fails. -/
theorem claim_C3_counterexample :
    endsWithLineBreak "a\r".data = true ∧
    process_srt_text (apply_glossary (fun _ _ => none) []) "a\r".data =
      "a".data ∧
    endsWithLineBreak
      (process_srt_text (apply_glossary (fun _ _ => none) []) "a\r".data) =
      false := by
  refine ⟨by decide, by decide, by decide⟩

/-- C3 (amended): the output ends with LF iff the input ends with the LF
character — provided the input does not end with a non-LF terminator and no
substitution leaves a dialogue line of the document empty or LF-terminated
(the code checks `endswith("\n")` only, and rejoins with LF). -/
theorem claim_C3_trailing_lf (f : List Char → List Char) (content : List Char)
    (hf : ∀ l ∈ pySplitlines content, isStructural l = false →
      f l ≠ [] ∧ (f l).getLast? ≠ some '\n')
    (hc : ∀ c, content.getLast? = some c → isLineBreak c = true → c = '\n') :
    endsWithLF (process_srt_text f content) = endsWithLF content := by
  cases hE : endsWithLF content with
  | true =>
    unfold process_srt_text
    rw [hE, if_pos rfl]
    simp [endsWithLF, List.getLast?_append_cons]
  | false =>
    unfold process_srt_text
    rw [hE]
    simp only [Bool.false_eq_true, if_false, List.append_nil]
    cases hcon : content with
    | nil => subst hcon; rfl
    | cons c0 rest =>
      subst hcon
      obtain ⟨cl, hcl⟩ : ∃ cl, (c0 :: rest).getLast? = some cl := by
        cases rest with
        | nil => exact ⟨c0, rfl⟩
        | cons y ys =>
          rw [getLast?_cons_ne c0 (y :: ys) (by simp)]
          exact ⟨(y :: ys).getLast (by simp), List.getLast?_eq_getLast _ _⟩
      have hclb : isLineBreak cl = false := by
        cases hb : isLineBreak cl with
        | false => rfl
        | true =>
          have : cl = '\n' := hc cl hcl hb
          subst this
          rw [endsWithLF, hcl] at hE
          simp at hE
      have hlast : ∀ c, (c0 :: rest).getLast? = some c → isLineBreak c = false := by
        intro c hcc
        rw [hcl] at hcc
        injection hcc with h1
        subst h1
        exact hclb
      obtain ⟨l, hl, hlne⟩ := psl_last_nonempty (c0 :: rest) (by simp) hlast
      have hmem : l ∈ pySplitlines (c0 :: rest) := mem_of_getLast?_eq _ _ hl
      have htl : transform_line f l ≠ [] ∧
          (transform_line f l).getLast? ≠ some '\n' := by
        unfold transform_line
        cases hs : isStructural l with
        | true =>
          refine ⟨by simp [hlne], ?_⟩
          simp only [if_true]
          intro hlf
          have : '\n' ∈ l := mem_of_getLast?_eq _ _ hlf
          exact absurd (psl_no_break_chars _ l hmem '\n' this) (by decide)
        | false =>
          simpa using hf l hmem hs
      have hmap : ((pySplitlines (c0 :: rest)).map (transform_line f)).getLast? =
          some (transform_line f l) := by
        rw [getLast?_map_eq, hl]
        rfl
      have hjoin := joinNl_getLast _ _ hmap htl.1
      rw [endsWithLF, hjoin]
      cases hglast : (transform_line f l).getLast? with
      | none => rfl
      | some cc =>
        have : cc ≠ '\n' := by
          intro h
          subst h
          exact htl.2 hglast
        simp [this]

/-- Witness for C3 on a terminator-free document with the identity glossary. -/
theorem claim_C3_witness :
    (∀ l ∈ pySplitlines "ab".data, isStructural l = false →
      (fun (x : List Char) => x) l ≠ [] ∧
      ((fun (x : List Char) => x) l).getLast? ≠ some '\n') ∧
    (∀ c, "ab".data.getLast? = some c → isLineBreak c = true → c = '\n') ∧
    endsWithLF (process_srt_text (fun x => x) "ab".data) =
      endsWithLF "ab".data :=
  ⟨by decide, by decide,
    claim_C3_trailing_lf (fun x => x) "ab".data (by decide) (by decide)⟩

/-!
## Claim C9 — idempotence of the seeded transform

The proof shows that after one pass of the three seeded `re.sub`s no position
of the result matches any of the three patterns, so a second pass is the
identity.  The key facts: every seeded branch is guarded by the letter class
on both sides, the replacement words are nonempty all-letter, whitespace-free
strings, and no folded replacement occurs as a contiguous segment of any
`w₁ ++ w₂` of the patterns — hence a replacement block can never take part
in a new match.
-/

theorem take_append_of_le {α : Type} :
    ∀ (i : Nat) (u v : List α), i ≤ u.length → (u ++ v).take i = u.take i := by
  intro i u v h
  induction u generalizing i with
  | nil =>
    have h0 : i = 0 := by simpa using h
    subst h0
    simp
  | cons x xs ih =>
    cases i with
    | zero => rfl
    | succ j =>
      simp only [List.cons_append, List.take_succ_cons]
      rw [ih j (by simpa using h)]

theorem drop_append_of_le {α : Type} :
    ∀ (i : Nat) (u v : List α), i ≤ u.length → (u ++ v).drop i = u.drop i ++ v := by
  intro i u v h
  induction u generalizing i with
  | nil =>
    have h0 : i = 0 := by simpa using h
    subst h0
    simp
  | cons x xs ih =>
    cases i with
    | zero => rfl
    | succ j =>
      simp only [List.cons_append, List.drop_succ_cons]
      exact ih j (by simpa using h)

theorem take_append_ge {α : Type} :
    ∀ (n : Nat) (u v : List α), u.length ≤ n →
      (u ++ v).take n = u ++ v.take (n - u.length) := by
  intro n u v h
  induction u generalizing n with
  | nil => simp
  | cons x xs ih =>
    cases n with
    | zero => simp at h
    | succ j =>
      simp only [List.cons_append, List.take_succ_cons, List.length_cons]
      rw [ih j (by simpa using h)]
      simp [Nat.succ_sub_succ]

theorem drop_append_ge {α : Type} :
    ∀ (n : Nat) (u v : List α), u.length ≤ n →
      (u ++ v).drop n = v.drop (n - u.length) := by
  intro n u v h
  induction u generalizing n with
  | nil => simp
  | cons x xs ih =>
    cases n with
    | zero => simp at h
    | succ j =>
      simp only [List.cons_append, List.drop_succ_cons, List.length_cons]
      rw [ih j (by simpa using h)]
      simp [Nat.succ_sub_succ]

theorem mem_takeWhile {α : Type} (p : α → Bool) :
    ∀ (l : List α) (x : α), x ∈ l.takeWhile p → p x = true := by
  intro l
  induction l with
  | nil => simp [List.takeWhile]
  | cons a as ih =>
    intro x hx
    rw [List.takeWhile_cons] at hx
    by_cases hp : p a
    · rw [if_pos hp] at hx
      rcases List.mem_cons.mp hx with rfl | hx2
      · exact hp
      · exact ih x hx2
    · rw [if_neg hp] at hx
      simp at hx

theorem drop_len_takeWhile {α : Type} (p : α → Bool) (l : List α) :
    l.drop (l.takeWhile p).length = l.dropWhile p := by
  induction l with
  | nil => rfl
  | cons x xs ih =>
    by_cases h : p x
    · simp [List.takeWhile_cons, List.dropWhile_cons, h, ih]
    · simp [List.takeWhile_cons, List.dropWhile_cons, h]

theorem headIsLetter_append (ci : Bool) (u v : List Char) (h : u ≠ []) :
    headIsLetter ci (u ++ v) = headIsLetter ci u := by
  cases u with
  | nil => exact absurd rfl h
  | cons c cs => rfl

theorem getLast?_cons_or {α : Type} (c : α) (u : List α) :
    (c :: u).getLast? = (u.getLast?).or (some c) := by
  cases u with
  | nil => rfl
  | cons d r =>
    rw [getLast?_cons_ne c (d :: r) (by simp)]
    cases hh : (d :: r).getLast? with
    | none =>
      exact absurd (List.getLast?_eq_none_iff.mp hh) (by simp)
    | some x => rfl

theorem matchWord_eq_some_iff (ci : Bool) :
    ∀ (w s r : List Char), matchWord ci w s = some r ↔
      w.length ≤ s.length ∧ (s.take w.length).map (foldChar ci) = w ∧
        r = s.drop w.length := by
  intro w
  induction w with
  | nil =>
    intro s r
    simp [matchWord, eq_comm]
  | cons p ps ih =>
    intro s r
    cases s with
    | nil =>
      simp [matchWord]
    | cons c cs =>
      simp only [matchWord, List.length_cons, List.take_succ_cons,
        List.drop_succ_cons, List.map_cons]
      by_cases h : foldChar ci c = p
      · rw [if_pos h, ih cs r]
        constructor
        · rintro ⟨h1, h2, h3⟩
          exact ⟨by omega, by rw [h, h2], h3⟩
        · rintro ⟨h1, h2, h3⟩
          injection h2 with h2a h2b
          exact ⟨by omega, h2b, h3⟩
      · rw [if_neg h]
        constructor
        · intro hx
          exact absurd hx (by simp)
        · rintro ⟨h1, h2, h3⟩
          injection h2 with h2a h2b
          exact absurd h2a h

/-- Anatomy of a successful branch match: the matched text splits as
`w₁`-image ++ whitespace run ++ `w₂`-image, followed by the rest, whose head
passes the lookahead when the branch is guarded. -/
theorem matchBranch_decomp (b : ReBranch) (prev : Option Char) (s : List Char)
    (n : Nat) (h : matchBranch b prev s = some n) :
    ∃ a ws c2 rest, s = a ++ ws ++ c2 ++ rest ∧
      n = a.length + ws.length + c2.length ∧
      rest = s.drop n ∧
      a.map (foldChar b.ci) = b.w1 ∧
      (∀ x ∈ ws, pyIsSpace x = true) ∧
      c2.map (foldChar b.ci) = b.w2.getD [] ∧
      (b.guard = true → headIsLetter b.ci rest = false) := by
  unfold matchBranch at h
  by_cases hg : (b.guard && prevIsLetter b.ci prev) = true
  · rw [if_pos hg] at h
    exact absurd h (by simp)
  · rw [if_neg hg] at h
    cases hw1 : matchWord b.ci b.w1 s with
    | none =>
      rw [hw1] at h
      exact absurd h (by simp)
    | some s1 =>
      rw [hw1] at h
      simp only [] at h
      obtain ⟨hlen1, hmap1, hs1⟩ := (matchWord_eq_some_iff b.ci b.w1 s s1).mp hw1
      have halen : (s.take b.w1.length).length = b.w1.length := by
        have := congrArg List.length hmap1
        simpa using this
      cases hw2 : b.w2 with
      | none =>
        rw [hw2] at h
        simp only [] at h
        by_cases hga : (b.guard && headIsLetter b.ci s1) = true
        · rw [if_pos hga] at h
          exact absurd h (by simp)
        · rw [if_neg hga] at h
          injection h with hn
          have hsplit : s = s.take b.w1.length ++ [] ++ [] ++ s1 := by
            simp [hs1, List.take_append_drop]
          refine ⟨s.take b.w1.length, [], [], s1, hsplit, by simp [← hn, halen],
            ?_, hmap1, by simp, by simp [hw2], ?_⟩
          · rw [← hn, hs1]
          · intro hgu
            cases hh : headIsLetter b.ci s1 with
            | false => rfl
            | true => exact absurd (by rw [hgu, hh]; rfl) hga
      | some w2 =>
        rw [hw2] at h
        simp only [] at h
        cases hw2m : matchWord b.ci w2 (s1.drop (s1.takeWhile pyIsSpace).length) with
        | none =>
          rw [hw2m] at h
          exact absurd h (by simp)
        | some s3 =>
          rw [hw2m] at h
          simp only [] at h
          obtain ⟨hlen2, hmap2, hs3⟩ :=
            (matchWord_eq_some_iff b.ci w2 _ s3).mp hw2m
          have hc2len : ((s1.drop (s1.takeWhile pyIsSpace).length).take w2.length).length
              = w2.length := by
            have := congrArg List.length hmap2
            simpa using this
          by_cases hga : (b.guard && headIsLetter b.ci s3) = true
          · rw [if_pos hga] at h
            exact absurd h (by simp)
          · rw [if_neg hga] at h
            injection h with hn
            have h2 : (s1.drop (s1.takeWhile pyIsSpace).length).take w2.length ++ s3 =
                s1.drop (s1.takeWhile pyIsSpace).length := by
              rw [hs3, List.take_append_drop]
            have h1 : s1.takeWhile pyIsSpace ++ s1.drop (s1.takeWhile pyIsSpace).length
                = s1 := by
              rw [drop_len_takeWhile, List.takeWhile_append_dropWhile]
            have hsplit : s = s.take b.w1.length ++ s1.takeWhile pyIsSpace ++
                ((s1.drop (s1.takeWhile pyIsSpace).length).take w2.length) ++ s3 := by
              rw [List.append_assoc, List.append_assoc, h2, h1, hs1,
                List.take_append_drop]
            refine ⟨s.take b.w1.length, s1.takeWhile pyIsSpace,
              (s1.drop (s1.takeWhile pyIsSpace).length).take w2.length, s3,
              hsplit, by rw [← hn, halen, hc2len], ?_, hmap1,
              fun x hx => mem_takeWhile pyIsSpace s1 x hx,
              by simp [hw2, hmap2], ?_⟩
            · rw [← hn, hs3, hs1]
              rw [List.drop_drop, List.drop_drop]
              congr 1
              omega
            · intro hgu
              cases hh : headIsLetter b.ci s3 with
              | false => rfl
              | true => exact absurd (by rw [hgu, hh]; rfl) hga

/-- A branch match that ends strictly inside `u` (including its lookahead
character) does not depend on what follows `u`. -/
theorem matchBranch_append_agree (b : ReBranch) (prev : Option Char)
    (u x y : List Char) (n : Nat)
    (h : matchBranch b prev (u ++ x) = some n) (hn : n + 1 ≤ u.length) :
    matchBranch b prev (u ++ y) = some n := by
  unfold matchBranch at h ⊢
  by_cases hg : (b.guard && prevIsLetter b.ci prev) = true
  · rw [if_pos hg] at h
    exact absurd h (by simp)
  · rw [if_neg hg] at h
    rw [if_neg hg]
    cases hw1 : matchWord b.ci b.w1 (u ++ x) with
    | none =>
      rw [hw1] at h
      exact absurd h (by simp)
    | some s1 =>
      rw [hw1] at h
      simp only [] at h
      obtain ⟨hlen1, hmap1, hs1⟩ := (matchWord_eq_some_iff b.ci b.w1 _ s1).mp hw1
      have hw1n : b.w1.length ≤ n := by
        cases hw2 : b.w2 with
        | none =>
          rw [hw2] at h
          simp only [] at h
          by_cases hga : (b.guard && headIsLetter b.ci s1) = true
          · rw [if_pos hga] at h; exact absurd h (by simp)
          · rw [if_neg hga] at h
            injection h with hv
            omega
        | some w2 =>
          rw [hw2] at h
          simp only [] at h
          cases hw2m : matchWord b.ci w2 (s1.drop (s1.takeWhile pyIsSpace).length) with
          | none => rw [hw2m] at h; exact absurd h (by simp)
          | some s3 =>
            rw [hw2m] at h
            simp only [] at h
            by_cases hga : (b.guard && headIsLetter b.ci s3) = true
            · rw [if_pos hga] at h; exact absurd h (by simp)
            · rw [if_neg hga] at h
              injection h with hv
              omega
      have hw1u : b.w1.length ≤ u.length := by omega
      have htake : (u ++ y).take b.w1.length = (u ++ x).take b.w1.length := by
        rw [take_append_of_le _ _ _ hw1u, take_append_of_le _ _ _ hw1u]
      have hw1' : matchWord b.ci b.w1 (u ++ y) = some ((u ++ y).drop b.w1.length) := by
        rw [matchWord_eq_some_iff]
        refine ⟨by simp; omega, ?_, rfl⟩
        rw [htake]
        exact hmap1
      rw [hw1']
      simp only []
      have hs1x : s1 = u.drop b.w1.length ++ x := by
        rw [hs1, drop_append_of_le _ _ _ hw1u]
      have ht1y : (u ++ y).drop b.w1.length = u.drop b.w1.length ++ y :=
        drop_append_of_le _ _ _ hw1u
      have hulen : (u.drop b.w1.length).length = u.length - b.w1.length := by simp
      cases hw2 : b.w2 with
      | none =>
        rw [hw2] at h
        simp only [] at h
        by_cases hga : (b.guard && headIsLetter b.ci s1) = true
        · rw [if_pos hga] at h; exact absurd h (by simp)
        · rw [if_neg hga] at h
          injection h with hv
          have hne : u.drop b.w1.length ≠ [] := by
            intro hz
            have := congrArg List.length hz
            rw [hulen] at this
            simp at this
            omega
          have hhead : headIsLetter b.ci ((u ++ y).drop b.w1.length) = headIsLetter b.ci s1 := by
            rw [ht1y, hs1x, headIsLetter_append _ _ _ hne, headIsLetter_append _ _ _ hne]
          rw [hhead, if_neg hga, hv]
      | some w2 =>
        rw [hw2] at h
        simp only [] at h
        rw [hs1x] at h
        set u2 := u.drop b.w1.length with hu2
        have hu2len : u2.length = u.length - b.w1.length := by
          rw [hu2]
          simp
        have htwle : (u2.takeWhile pyIsSpace).length ≤ u2.length := by
          have h3 := congrArg List.length (List.takeWhile_append_dropWhile pyIsSpace u2)
          rw [List.length_append] at h3
          omega
        cases hw2m : matchWord b.ci w2 ((u2 ++ x).drop ((u2 ++ x).takeWhile pyIsSpace).length) with
        | none =>
          rw [hw2m] at h
          exact absurd h (by simp)
        | some s3 =>
          rw [hw2m] at h
          simp only [] at h
          by_cases hga : (b.guard && headIsLetter b.ci s3) = true
          · rw [if_pos hga] at h
            exact absurd h (by simp)
          · rw [if_neg hga] at h
            injection h with hv
            obtain ⟨hlen2, hmap2, hs3⟩ := (matchWord_eq_some_iff b.ci w2 _ s3).mp hw2m
            have hkshort : (u2.takeWhile pyIsSpace).length < u2.length := by
              by_contra hk
              push_neg at hk
              have hkeq : (u2.takeWhile pyIsSpace).length = u2.length := by omega
              have htw : (u2 ++ x).takeWhile pyIsSpace = u2 ++ x.takeWhile pyIsSpace := by
                rw [List.takeWhile_append, if_pos hkeq]
              have hge : u2.length ≤ ((u2 ++ x).takeWhile pyIsSpace).length := by
                rw [htw]
                simp
              omega
            have hkne : ¬ (u2.takeWhile pyIsSpace).length = u2.length := by omega
            have htwx : (u2 ++ x).takeWhile pyIsSpace = u2.takeWhile pyIsSpace := by
              rw [List.takeWhile_append, if_neg hkne]
            have htwy : (u2 ++ y).takeWhile pyIsSpace = u2.takeWhile pyIsSpace := by
              rw [List.takeWhile_append, if_neg hkne]
            rw [htwx] at hv hmap2 hlen2 hs3
            set k0 := (u2.takeWhile pyIsSpace).length with hk0
            have hk0le : k0 ≤ u2.length := le_of_lt hkshort
            have hdx : (u2 ++ x).drop k0 = u2.drop k0 ++ x := drop_append_of_le _ _ _ hk0le
            have hdy : (u2 ++ y).drop k0 = u2.drop k0 ++ y := drop_append_of_le _ _ _ hk0le
            have hdk0len : (u2.drop k0).length = u2.length - k0 := by simp
            have hw2lt : w2.length < (u2.drop k0).length := by
              rw [hdk0len]
              omega
            have hw2le : w2.length ≤ (u2.drop k0).length := le_of_lt hw2lt
            have htke : (u2.drop k0 ++ y).take w2.length = (u2.drop k0 ++ x).take w2.length := by
              rw [take_append_of_le _ _ _ hw2le, take_append_of_le _ _ _ hw2le]
            have hw2y : matchWord b.ci w2 ((u2 ++ y).drop k0) =
                some ((u2.drop k0 ++ y).drop w2.length) := by
              rw [hdy, matchWord_eq_some_iff]
              refine ⟨by simp; omega, ?_, rfl⟩
              rw [htke, ← hdx]
              exact hmap2
            have hs3x : s3 = (u2.drop k0).drop w2.length ++ x := by
              rw [hs3, hdx, drop_append_of_le _ _ _ hw2le]
            have hcore : (u2.drop k0).drop w2.length ≠ [] := by
              intro hz
              have := congrArg List.length hz
              simp at this
              omega
            have hheads : headIsLetter b.ci ((u2.drop k0 ++ y).drop w2.length) =
                headIsLetter b.ci s3 := by
              rw [hs3x, drop_append_of_le _ _ _ hw2le,
                headIsLetter_append _ _ _ hcore, headIsLetter_append _ _ _ hcore]
            simp only []
            rw [ht1y, htwy, ← hk0, hw2y]
            simp only []
            rw [hheads, if_neg hga, hv]

theorem tryMatch_some_exists (P : List ReBranch) (prev : Option Char)
    (s : List Char) (n : Nat) (h : tryMatch P prev s = some n) :
    ∃ b, b ∈ P ∧ matchBranch b prev s = some n := by
  induction P with
  | nil => simp [tryMatch] at h
  | cons b bs ih =>
    rw [tryMatch] at h
    cases hb : matchBranch b prev s with
    | none =>
      rw [hb] at h
      simp only [] at h
      obtain ⟨b2, hb2, hm⟩ := ih h
      exact ⟨b2, List.mem_cons_of_mem _ hb2, hm⟩
    | some m =>
      rw [hb] at h
      simp only [] at h
      injection h with h1
      subst h1
      exact ⟨b, List.mem_cons_self _ _, hb⟩

theorem tryMatch_ne_none_of_branch (P : List ReBranch) (prev : Option Char)
    (s : List Char) (b : ReBranch) (n : Nat) (hbP : b ∈ P)
    (hb : matchBranch b prev s = some n) : tryMatch P prev s ≠ none := by
  induction P with
  | nil => simp at hbP
  | cons b0 bs ih =>
    rw [tryMatch]
    cases hb0 : matchBranch b0 prev s with
    | none =>
      simp only []
      rcases List.mem_cons.mp hbP with rfl | hmem
      · rw [hb0] at hb
        exact absurd hb (by simp)
      · exact ih hmem
    | some m => simp

theorem tryMatch_guard_letter (P : List ReBranch)
    (hg : ∀ b ∈ P, b.guard = true) (c : Char)
    (hc : ∀ b ∈ P, letterTest b.ci c = true)
    (s : List Char) : tryMatch P (some c) s = none := by
  induction P with
  | nil => rfl
  | cons b bs ih =>
    rw [tryMatch]
    have hb : matchBranch b (some c) s = none := by
      unfold matchBranch
      rw [if_pos]
      rw [hg b (List.mem_cons_self _ _)]
      simp [prevIsLetter, hc b (List.mem_cons_self _ _)]
    rw [hb]
    exact ih (fun b2 h2 => hg b2 (List.mem_cons_of_mem _ h2))
      (fun b2 h2 => hc b2 (List.mem_cons_of_mem _ h2))

theorem tryMatch_nil_none (P : List ReBranch) (hw : ∀ b ∈ P, b.w1 ≠ [])
    (prev : Option Char) : tryMatch P prev [] = none := by
  induction P with
  | nil => rfl
  | cons b bs ih =>
    rw [tryMatch]
    have hb : matchBranch b prev [] = none := by
      unfold matchBranch
      have : matchWord b.ci b.w1 [] = none := by
        cases hb1 : b.w1 with
        | nil => exact absurd hb1 (hw b (List.mem_cons_self _ _))
        | cons p ps => rfl
      rw [this]
      split
      · rfl
      · rfl
    rw [hb]
    exact ih (fun b2 h2 => hw b2 (List.mem_cons_of_mem _ h2))

theorem tryMatch_bounds (P : List ReBranch) (hw : ∀ b ∈ P, b.w1 ≠ [])
    (prev : Option Char) (s : List Char) (n : Nat)
    (h : tryMatch P prev s = some n) : 1 ≤ n ∧ n ≤ s.length := by
  obtain ⟨b, hbP, hb⟩ := tryMatch_some_exists P prev s n h
  obtain ⟨a, ws, c2, rest, hsplit, hlen, -, hmap, -, -, -⟩ :=
    matchBranch_decomp b prev s n hb
  have ha : a ≠ [] := by
    intro hz
    rw [hz] at hmap
    exact hw b hbP (by simpa using hmap.symm)
  have ha1 : 1 ≤ a.length := by
    cases a with
    | nil => exact absurd rfl ha
    | cons _ _ => simp
  have hslen := congrArg List.length hsplit
  simp only [List.length_append] at hslen
  omega

theorem isSeg_intro (r l u v : List Char) (h : l = u ++ r ++ v) :
    isSeg r l = true := by
  unfold isSeg
  rw [List.any_eq_true]
  refine ⟨u.length, ?_, ?_⟩
  · rw [List.mem_range]
    have hlen := congrArg List.length h
    simp only [List.length_append] at hlen
    omega
  · have h1 : l.drop u.length = r ++ v := by
      rw [h, List.append_assoc, List.drop_left]
    rw [h1, List.take_left]
    simp

/-- A contiguous whitespace-free segment of `a ++ ws ++ c2` with `ws` all
whitespace is a segment of `a ++ c2`. -/
theorem seg_skip (a ws c2 u R w : List Char)
    (heq : a ++ ws ++ c2 = u ++ R ++ w)
    (hws : ∀ x ∈ ws, pyIsSpace x = true)
    (hR : ∀ x ∈ R, pyIsSpace x = false) :
    ∃ u2 v2, a ++ c2 = u2 ++ R ++ v2 := by
  by_cases hwsnil : ws = []
  · subst hwsnil
    exact ⟨u, w, by simpa using heq⟩
  by_cases hRnil : R = []
  · subst hRnil
    exact ⟨a, c2, by simp⟩
  rcases le_or_lt (u.length + R.length) a.length with hca | hca
  · have h1 : a = u ++ R ++ w.take (a.length - (u.length + R.length)) := by
      have h2 := congrArg (List.take a.length) heq
      rw [List.append_assoc, List.take_left] at h2
      rw [take_append_ge a.length (u ++ R) w (by simp; omega)] at h2
      simpa using h2
    refine ⟨u, w.take (a.length - (u.length + R.length)) ++ c2, ?_⟩
    conv_lhs => rw [h1]
    simp [List.append_assoc]
  rcases le_or_lt (a.length + ws.length) u.length with hcb | hcb
  · have h1 : c2 = u.drop (a.length + ws.length) ++ R ++ w := by
      have h2 := congrArg (List.drop (a.length + ws.length)) heq
      rw [List.drop_left' (by simp)] at h2
      rw [List.append_assoc, drop_append_of_le _ _ _ hcb] at h2
      simpa using h2
    refine ⟨a ++ u.drop (a.length + ws.length), w, ?_⟩
    conv_lhs => rw [h1]
    simp [List.append_assoc]
  · exfalso
    have hRlen : 1 ≤ R.length := by
      cases R with
      | nil => exact absurd rfl hRnil
      | cons _ _ => simp
    have hwslen : 1 ≤ ws.length := by
      cases ws with
      | nil => exact absurd rfl hwsnil
      | cons _ _ => simp
    set i := max a.length u.length with hi
    have hia : a.length ≤ i := le_max_left _ _
    have hiu : u.length ≤ i := le_max_right _ _
    have hilt1 : i < a.length + ws.length := by omega
    have hilt2 : i < u.length + R.length := by omega
    have e1 : (a ++ ws ++ c2)[i]? = ws[i - a.length]? := by
      rw [List.append_assoc, List.getElem?_append_right (by omega),
        List.getElem?_append_left (by omega)]
    have e2 : (u ++ R ++ w)[i]? = R[i - u.length]? := by
      rw [List.append_assoc, List.getElem?_append_right (by omega),
        List.getElem?_append_left (by omega)]
    have e3 := congrArg (fun (l : List Char) => l[i]?) heq
    simp only [] at e3
    rw [e1, e2] at e3
    cases hws1 : ws[i - a.length]? with
    | none =>
      have : i - a.length < ws.length := by omega
      rw [List.getElem?_eq_getElem this] at hws1
      exact absurd hws1 (by simp)
    | some e =>
      rw [hws1] at e3
      have hmem1 : e ∈ ws := List.getElem?_mem hws1
      have hmem2 : e ∈ R := List.getElem?_mem e3.symm
      have hsp := hws e hmem1
      have hnsp := hR e hmem2
      rw [hsp] at hnsp
      exact absurd hnsp (by simp)

/-- Core of the no-recreation argument: if the pattern matches somewhere on
`u ++ R ++ z`, where `R` is a replacement block (nonempty, all letters, no
whitespace, and never a folded segment of any branch's `w₁ ++ w₂`), then the
match must in fact end inside `u` — so the pattern also matches on `u`
followed by anything. -/
theorem tryMatch_no_new (P : List ReBranch) (R : List Char)
    (hg : ∀ b ∈ P, b.guard = true)
    (hRlet : ∀ x ∈ R, ∀ b ∈ P, letterTest b.ci x = true)
    (hRsp : ∀ x ∈ R, pyIsSpace x = false)
    (hseg : ∀ b ∈ P, isSeg (R.map (foldChar b.ci)) (b.w1 ++ b.w2.getD []) = false)
    (prev : Option Char) (u z : List Char)
    (hmatch : tryMatch P prev (u ++ R ++ z) ≠ none) :
    ∀ y, tryMatch P prev (u ++ y) ≠ none := by
  intro y
  obtain ⟨n, hn⟩ := Option.ne_none_iff_exists'.mp hmatch
  obtain ⟨b, hbP, hb⟩ := tryMatch_some_exists _ _ _ _ hn
  by_cases hcase : n + 1 ≤ u.length
  · rw [List.append_assoc] at hb
    have hb2 : matchBranch b prev (u ++ y) = some n :=
      matchBranch_append_agree b prev u (R ++ z) y n hb hcase
    exact tryMatch_ne_none_of_branch _ _ _ b n hbP hb2
  · exfalso
    push_neg at hcase
    obtain ⟨a, ws, c2, rest, hsplit, hlen, hrest, hmap1, hws, hmap2, hguard⟩ :=
      matchBranch_decomp b prev (u ++ R ++ z) n hb
    have hhead := hguard (hg b hbP)
    have hulen : u.length ≤ n := by omega
    have hslen := congrArg List.length hsplit
    simp only [List.length_append] at hslen
    rcases Nat.lt_or_ge n (u.length + R.length) with hlt | hge
    · -- the lookahead character falls inside `R`, a letter: contradiction
      have hdrop : (u ++ R ++ z).drop n = R.drop (n - u.length) ++ z := by
        rw [List.append_assoc, drop_append_ge n u (R ++ z) hulen,
          drop_append_of_le _ _ _ (by omega)]
      have hRd : R.drop (n - u.length) ≠ [] := by
        intro hz2
        have := congrArg List.length hz2
        simp at this
        omega
      rw [hrest, hdrop, headIsLetter_append _ _ _ hRd] at hhead
      cases hRdc : R.drop (n - u.length) with
      | nil => exact hRd hRdc
      | cons d ds =>
        rw [hRdc] at hhead
        have hdR : d ∈ R :=
          List.mem_of_mem_drop (hRdc ▸ List.mem_cons_self d ds)
        have hdl : letterTest b.ci d = true := hRlet d hdR b hbP
        rw [headIsLetter] at hhead
        rw [hdl] at hhead
        exact absurd hhead (by simp)
    · -- `R` lies inside the matched text: the folded replacement would be a
      -- segment of `w₁ ++ w₂`
      have htake1 : (u ++ R ++ z).take n = a ++ ws ++ c2 := by
        rw [hsplit]
        exact List.take_left' (by simp only [List.length_append]; omega)
      have htake2 : (u ++ R ++ z).take n =
          u ++ R ++ z.take (n - (u.length + R.length)) := by
        rw [take_append_ge n (u ++ R) z (by simp only [List.length_append]; omega)]
        simp [List.length_append]
      have hABC : a ++ ws ++ c2 = u ++ R ++ z.take (n - (u.length + R.length)) := by
        rw [← htake1, htake2]
      obtain ⟨u2, v2, hskip⟩ := seg_skip a ws c2 u R _ hABC hws hRsp
      have h5 : b.w1 ++ b.w2.getD [] =
          u2.map (foldChar b.ci) ++ R.map (foldChar b.ci) ++
            v2.map (foldChar b.ci) := by
        rw [← hmap1, ← hmap2, ← List.map_append, hskip]
        simp [List.map_append]
      have h6 := isSeg_intro (R.map (foldChar b.ci)) _ _ _ h5
      rw [hseg b hbP] at h6
      exact absurd h6 (by simp)

/-- A pattern with no match anywhere leaves the scan untouched. -/
theorem subLoop_id (P : List ReBranch) (R : List Char) :
    ∀ (fuel : Nat) (prev : Option Char) (s : List Char),
      noMatchB P prev s = true → subLoop P R fuel prev s = s := by
  intro fuel
  induction fuel with
  | zero => intro prev s h; rfl
  | succ f ih =>
    intro prev s h
    cases s with
    | nil => rfl
    | cons c rest =>
      have h2 : (tryMatch P prev (c :: rest)).isNone = true ∧
          noMatchB P (some c) rest = true := by
        have h3 : noMatchB P prev (c :: rest) =
            ((tryMatch P prev (c :: rest)).isNone && noMatchB P (some c) rest) := rfl
        rw [h3] at h
        exact And.intro (Bool.and_elim_left h) (Bool.and_elim_right h)
      have h4 : tryMatch P prev (c :: rest) = none :=
        Option.isNone_iff_eq_none.mp h2.1
      show (match tryMatch P prev (c :: rest) with
        | none => c :: subLoop P R f (some c) rest
        | some n => _) = c :: rest
      rw [h4]
      simp only []
      rw [ih (some c) rest h2.2]

theorem noMatchB_letter_ctx (P : List ReBranch)
    (hg : ∀ b ∈ P, b.guard = true) (c : Char)
    (hc : ∀ b ∈ P, letterTest b.ci c = true)
    (prev : Option Char) (s : List Char) (h : noMatchB P prev s = true) :
    noMatchB P (some c) s = true := by
  cases s with
  | nil => rfl
  | cons c0 rest =>
    have h3 : noMatchB P prev (c0 :: rest) =
        ((tryMatch P prev (c0 :: rest)).isNone && noMatchB P (some c0) rest) := rfl
    rw [h3] at h
    show ((tryMatch P (some c) (c0 :: rest)).isNone &&
      noMatchB P (some c0) rest) = true
    rw [tryMatch_guard_letter P hg c hc]
    simpa using Bool.and_elim_right h

theorem noMatchB_append (P : List ReBranch) :
    ∀ (u : List Char) (prev : Option Char) (z : List Char),
      noMatchB P prev (u ++ z) = true →
      noMatchUpto P prev u z ∧ noMatchB P ((u.getLast?).or prev) z = true := by
  intro u
  induction u with
  | nil =>
    intro prev z h
    exact ⟨trivial, by simpa using h⟩
  | cons c u2 ih =>
    intro prev z h
    have h3 : noMatchB P prev ((c :: u2) ++ z) =
        ((tryMatch P prev (c :: (u2 ++ z))).isNone &&
          noMatchB P (some c) (u2 ++ z)) := rfl
    rw [h3] at h
    have h4 : tryMatch P prev (c :: (u2 ++ z)) = none :=
      Option.isNone_iff_eq_none.mp (Bool.and_elim_left h)
    obtain ⟨hup, htail⟩ := ih (some c) z (Bool.and_elim_right h)
    refine ⟨⟨h4, hup⟩, ?_⟩
    rw [getLast?_cons_or, Option.or_assoc]
    simpa using htail

theorem noMatchB_letters_prefix (P : List ReBranch)
    (hg : ∀ b ∈ P, b.guard = true) :
    ∀ (u2 : List Char), (∀ x ∈ u2, ∀ b ∈ P, letterTest b.ci x = true) →
      ∀ (c0 : Char), (∀ b ∈ P, letterTest b.ci c0 = true) → ∀ (v : List Char),
      noMatchB P ((u2.getLast?).or (some c0)) v = true →
      noMatchB P (some c0) (u2 ++ v) = true := by
  intro u2
  induction u2 with
  | nil =>
    intro _ c0 _ v h
    simpa using h
  | cons d u3 ih =>
    intro hall c0 hc0 v h
    show ((tryMatch P (some c0) (d :: (u3 ++ v))).isNone &&
      noMatchB P (some d) (u3 ++ v)) = true
    rw [tryMatch_guard_letter P hg c0 hc0]
    have h2 : noMatchB P ((u3.getLast?).or (some d)) v = true := by
      rw [getLast?_cons_or, Option.or_assoc] at h
      simpa using h
    have := ih (fun x hx => hall x (List.mem_cons_of_mem _ hx)) d
      (hall d (List.mem_cons_self _ _)) v h2
    simpa using this

/-- Gluing: no target-pattern match anywhere on copied text, a replacement
block, and an already-clean continuation. -/
theorem noMatchB_glue (P : List ReBranch) (R : List Char)
    (hg : ∀ b ∈ P, b.guard = true)
    (hwP : ∀ b ∈ P, b.w1 ≠ [])
    (hRlet : ∀ x ∈ R, ∀ b ∈ P, letterTest b.ci x = true)
    (hRsp : ∀ x ∈ R, pyIsSpace x = false)
    (hseg : ∀ b ∈ P, isSeg (R.map (foldChar b.ci)) (b.w1 ++ b.w2.getD []) = false)
    (rl : Char) (hrl : R.getLast? = some rl) :
    ∀ (u : List Char) (prev rprev : Option Char) (tail OUT : List Char),
      (rprev = prev ∨ ∃ c, rprev = some c ∧ ∀ b ∈ P, letterTest b.ci c = true) →
      noMatchUpto P prev u tail →
      noMatchB P (some rl) OUT = true →
      noMatchB P rprev (u ++ (R ++ OUT)) = true := by
  intro u
  induction u with
  | nil =>
    intro prev rprev tail OUT hrel hup hOUT
    cases hRc : R with
    | nil =>
      rw [hRc] at hrl
      simp at hrl
    | cons r0 R2 =>
      subst hRc
      show ((tryMatch P rprev (r0 :: (R2 ++ OUT))).isNone &&
        noMatchB P (some r0) (R2 ++ OUT)) = true
      have hhead : tryMatch P rprev (r0 :: (R2 ++ OUT)) = none := by
        by_contra hne
        have hne2 : tryMatch P rprev ([] ++ (r0 :: R2) ++ OUT) ≠ none := by
          simpa using hne
        have := tryMatch_no_new P (r0 :: R2) hg hRlet hRsp hseg rprev [] OUT hne2 []
        exact this (tryMatch_nil_none P hwP rprev)
      rw [hhead]
      have htail : noMatchB P (some r0) (R2 ++ OUT) = true := by
        apply noMatchB_letters_prefix P hg R2
          (fun x hx => hRlet x (List.mem_cons_of_mem _ hx)) r0
          (hRlet r0 (List.mem_cons_self _ _)) OUT
        rw [getLast?_cons_or] at hrl
        rw [hrl]
        exact hOUT
      simpa using htail
  | cons c u2 ih =>
    intro prev rprev tail OUT hrel hup hOUT
    show ((tryMatch P rprev (c :: (u2 ++ (R ++ OUT)))).isNone &&
      noMatchB P (some c) (u2 ++ (R ++ OUT))) = true
    have hhead : tryMatch P rprev (c :: (u2 ++ (R ++ OUT))) = none := by
      rcases hrel with rfl | ⟨cl, rfl, hcl⟩
      · by_contra hne
        have hne2 : tryMatch P rprev ((c :: u2) ++ R ++ OUT) ≠ none := by
          simpa [List.append_assoc] using hne
        have := tryMatch_no_new P R hg hRlet hRsp hseg rprev (c :: u2) OUT hne2 tail
        exact this (by simpa using hup.1)
      · exact tryMatch_guard_letter P hg cl hcl _
    rw [hhead]
    have := ih (some c) (some c) tail OUT (Or.inl rfl) hup.2 hOUT
    simpa using this

/-- Decomposition of one `re.sub` scan: either nothing matches and the text
is returned unchanged, or the scan copies a clean prefix `u`, replaces a
first match `m`, and continues on the rest. -/
theorem subLoop_split (P : List ReBranch) (R : List Char)
    (hw : ∀ b ∈ P, b.w1 ≠ []) :
    ∀ (fuel : Nat) (prev : Option Char) (s : List Char), s.length ≤ fuel →
      (noMatchB P prev s = true ∧ subLoop P R fuel prev s = s) ∨
      (∃ u m z fuel2 cm, s = u ++ m ++ z ∧ m ≠ [] ∧
        m.getLast? = some cm ∧
        noMatchUpto P prev u (m ++ z) ∧
        tryMatch P ((u.getLast?).or prev) (m ++ z) = some m.length ∧
        z.length ≤ fuel2 ∧
        subLoop P R fuel prev s = u ++ R ++ subLoop P R fuel2 (some cm) z) := by
  intro fuel
  induction fuel with
  | zero =>
    intro prev s hlen
    have hs : s = [] := by
      cases s with
      | nil => rfl
      | cons c r => simp at hlen
    subst hs
    exact Or.inl ⟨rfl, rfl⟩
  | succ f ih =>
    intro prev s hlen
    cases s with
    | nil => exact Or.inl ⟨rfl, rfl⟩
    | cons c rest =>
      cases hm : tryMatch P prev (c :: rest) with
      | none =>
        have hsub : subLoop P R (f + 1) prev (c :: rest) =
            c :: subLoop P R f (some c) rest := by
          show (match tryMatch P prev (c :: rest) with
            | none => c :: subLoop P R f (some c) rest
            | some n => R ++ subLoop P R f
                (some (((c :: rest).take n).getLastD c)) ((c :: rest).drop n)) =
            c :: subLoop P R f (some c) rest
          rw [hm]
        rcases ih (some c) rest (by simpa using hlen) with ⟨hnm, hid⟩ |
          ⟨u, m, z, fuel2, cm, hsz, hmne, hcm, hup, htm, hzf, hsub2⟩
        · left
          constructor
          · show ((tryMatch P prev (c :: rest)).isNone &&
              noMatchB P (some c) rest) = true
            rw [hm]
            simpa using hnm
          · rw [hsub, hid]
        · right
          refine ⟨c :: u, m, z, fuel2, cm, by rw [hsz]; simp, hmne, hcm,
            ⟨?_, hup⟩, ?_, hzf, ?_⟩
          · rw [hsz] at hm
            simpa [List.append_assoc] using hm
          · rw [getLast?_cons_or, Option.or_assoc]
            simpa using htm
          · rw [hsub, hsub2]
            simp
      | some n =>
        obtain ⟨hn1, hnlen⟩ := tryMatch_bounds P hw prev (c :: rest) n hm
        have hmlen : ((c :: rest).take n).length = n := by
          rw [List.length_take]
          omega
        have hmne : (c :: rest).take n ≠ [] := by
          intro hz
          have := congrArg List.length hz
          rw [hmlen] at this
          simp at this
          omega
        cases hgl : ((c :: rest).take n).getLast? with
        | none => exact absurd (List.getLast?_eq_none_iff.mp hgl) hmne
        | some cm =>
          right
          have hgld : ((c :: rest).take n).getLastD c = cm := by
            rw [List.getLastD_eq_getLast?, hgl]
            rfl
          refine ⟨[], (c :: rest).take n, (c :: rest).drop n, f, cm,
            by simp [List.take_append_drop], hmne, hgl, trivial, ?_, ?_, ?_⟩
          · rw [List.take_append_drop, hmlen]
            simpa using hm
          · simp only [List.length_drop, List.length_cons] at hlen ⊢
            omega
          · show (match tryMatch P prev (c :: rest) with
              | none => c :: subLoop P R f (some c) rest
              | some n => R ++ subLoop P R f
                  (some (((c :: rest).take n).getLastD c)) ((c :: rest).drop n)) =
              [] ++ R ++ subLoop P R f (some cm) ((c :: rest).drop n)
            rw [hm]
            simp only [hgld, List.nil_append]

/-- Main invariant: after a `re.sub` scan with a replacement block `R` that
can create no `Pt`-match, the output has no `Pt`-match — either because
`Pt` is the scanned pattern itself (the scan removed every match), or
because the input already had none. -/
theorem subLoop_noMatch (Ps Pt : List ReBranch) (R : List Char)
    (hgt : ∀ b ∈ Pt, b.guard = true)
    (hwt : ∀ b ∈ Pt, b.w1 ≠ [])
    (hwsrc : ∀ b ∈ Ps, b.w1 ≠ [])
    (hRlet : ∀ x ∈ R, ∀ b ∈ Pt, letterTest b.ci x = true)
    (hRsp : ∀ x ∈ R, pyIsSpace x = false)
    (hRne : R ≠ [])
    (hseg : ∀ b ∈ Pt, isSeg (R.map (foldChar b.ci)) (b.w1 ++ b.w2.getD []) = false) :
    ∀ (N fuel : Nat) (prev rprev : Option Char) (s : List Char),
      s.length ≤ N → s.length ≤ fuel →
      (rprev = prev ∨ ∃ c, rprev = some c ∧ ∀ b ∈ Pt, letterTest b.ci c = true) →
      (Pt = Ps ∨ noMatchB Pt prev s = true) →
      noMatchB Pt rprev (subLoop Ps R fuel prev s) = true := by
  intro N
  induction N with
  | zero =>
    intro fuel prev rprev s hN hf hrel hcase
    have hs : s = [] := by
      cases s with
      | nil => rfl
      | cons c r => simp at hN
    subst hs
    cases fuel <;> rfl
  | succ N ih =>
    intro fuel prev rprev s hN hf hrel hcase
    rcases subLoop_split Ps R hwsrc fuel prev s hf with ⟨hnm, hid⟩ |
      ⟨u, m, z, fuel2, cm, hsz, hmne, hcm, hup, htm, hzf, hsub⟩
    · rw [hid]
      have hbase : noMatchB Pt prev s = true := by
        rcases hcase with hPP | hc
        · rw [hPP]
          exact hnm
        · exact hc
      rcases hrel with rfl | ⟨cl, rfl, hcl⟩
      · exact hbase
      · exact noMatchB_letter_ctx Pt hgt cl hcl prev s hbase
    · rw [hsub]
      have hm1 : 1 ≤ m.length := by
        cases m with
        | nil => exact absurd rfl hmne
        | cons _ _ => simp
      have hzN : z.length ≤ N := by
        have := congrArg List.length hsz
        simp only [List.length_append] at this
        omega
      cases hrlc : R.getLast? with
      | none => exact absurd (List.getLast?_eq_none_iff.mp hrlc) hRne
      | some rl =>
        have hrll : ∀ b ∈ Pt, letterTest b.ci rl = true :=
          hRlet rl (mem_of_getLast?_eq _ _ hrlc)
        have hKz : Pt = Ps ∨ noMatchB Pt (some cm) z = true := by
          rcases hcase with hPP | hK2
          · exact Or.inl hPP
          · right
            rw [hsz] at hK2
            have h1 := (noMatchB_append Pt (u ++ m) prev z hK2).2
            rw [List.getLast?_append_of_ne_nil u hmne, hcm] at h1
            simpa using h1
        have hOUT := ih fuel2 (some cm) (some rl) z hzN hzf
          (Or.inr ⟨rl, rfl, hrll⟩) hKz
        have hupT : noMatchUpto Pt prev u (m ++ z) := by
          rcases hcase with hPP | hK2
          · rw [hPP]
            exact hup
          · rw [hsz, List.append_assoc] at hK2
            exact (noMatchB_append Pt u prev (m ++ z) hK2).1
        have := noMatchB_glue Pt R hgt hwt hRlet hRsp hseg rl hrlc u prev rprev
          (m ++ z) (subLoop Ps R fuel2 (some cm) z) hrel hupT hOUT
        simpa [List.append_assoc] using this

/-- After one pass of the three seeded substitutions, no position of the
line matches any seeded pattern. -/
theorem apply_glossary_seed_noMatch (s : List Char) :
    noMatchB hinhAnhPattern none (apply_glossary_seed s) = true ∧
    noMatchB nutPattern none (apply_glossary_seed s) = true ∧
    noMatchB thungChuaPattern none (apply_glossary_seed s) = true := by
  have h1a : noMatchB hinhAnhPattern none
      (reSub hinhAnhPattern "Image".data s) = true :=
    subLoop_noMatch hinhAnhPattern hinhAnhPattern "Image".data
      (by decide) (by decide) (by decide) (by decide) (by decide) (by decide)
      (by decide) s.length s.length none none s le_rfl le_rfl
      (Or.inl rfl) (Or.inl rfl)
  have h1b : noMatchB hinhAnhPattern none
      (reSub nutPattern "node".data (reSub hinhAnhPattern "Image".data s)) = true :=
    subLoop_noMatch nutPattern hinhAnhPattern "node".data
      (by decide) (by decide) (by decide) (by decide) (by decide) (by decide)
      (by decide) _ _ none none _ le_rfl le_rfl (Or.inl rfl) (Or.inr h1a)
  have h1c : noMatchB hinhAnhPattern none (apply_glossary_seed s) = true :=
    subLoop_noMatch thungChuaPattern hinhAnhPattern "container".data
      (by decide) (by decide) (by decide) (by decide) (by decide) (by decide)
      (by decide) _ _ none none _ le_rfl le_rfl (Or.inl rfl) (Or.inr h1b)
  have h2a : noMatchB nutPattern none
      (reSub nutPattern "node".data (reSub hinhAnhPattern "Image".data s)) = true :=
    subLoop_noMatch nutPattern nutPattern "node".data
      (by decide) (by decide) (by decide) (by decide) (by decide) (by decide)
      (by decide) _ _ none none _ le_rfl le_rfl (Or.inl rfl) (Or.inl rfl)
  have h2b : noMatchB nutPattern none (apply_glossary_seed s) = true :=
    subLoop_noMatch thungChuaPattern nutPattern "container".data
      (by decide) (by decide) (by decide) (by decide) (by decide) (by decide)
      (by decide) _ _ none none _ le_rfl le_rfl (Or.inl rfl) (Or.inr h2a)
  have h3 : noMatchB thungChuaPattern none (apply_glossary_seed s) = true :=
    subLoop_noMatch thungChuaPattern thungChuaPattern "container".data
      (by decide) (by decide) (by decide) (by decide) (by decide) (by decide)
      (by decide) _ _ none none _ le_rfl le_rfl (Or.inl rfl) (Or.inl rfl)
  exact ⟨h1c, h2b, h3⟩

/-- The seeded glossary is idempotent on a single line. -/
theorem apply_glossary_seed_idem (s : List Char) :
    apply_glossary_seed (apply_glossary_seed s) = apply_glossary_seed s := by
  obtain ⟨h1, h2, h3⟩ := apply_glossary_seed_noMatch s
  show reSub thungChuaPattern "container".data
      (reSub nutPattern "node".data
        (reSub hinhAnhPattern "Image".data (apply_glossary_seed s))) =
    apply_glossary_seed s
  rw [show reSub hinhAnhPattern "Image".data (apply_glossary_seed s) =
      apply_glossary_seed s from subLoop_id _ _ _ _ _ h1]
  rw [show reSub nutPattern "node".data (apply_glossary_seed s) =
      apply_glossary_seed s from subLoop_id _ _ _ _ _ h2]
  exact subLoop_id _ _ _ _ _ h3

theorem subLoop_chars (P : List ReBranch) (R : List Char) :
    ∀ (fuel : Nat) (prev : Option Char) (s : List Char) (c : Char),
      c ∈ subLoop P R fuel prev s → c ∈ s ∨ c ∈ R := by
  intro fuel
  induction fuel with
  | zero => exact fun prev s c hc => Or.inl hc
  | succ f ih =>
    intro prev s c hc
    cases s with
    | nil => simp [subLoop] at hc
    | cons c0 rest =>
      by_cases hm : ∃ n, tryMatch P prev (c0 :: rest) = some n
      · obtain ⟨n, hn⟩ := hm
        have hred : subLoop P R (f + 1) prev (c0 :: rest) =
            R ++ subLoop P R f (some (((c0 :: rest).take n).getLastD c0))
              ((c0 :: rest).drop n) := by
          show (match tryMatch P prev (c0 :: rest) with
            | none => c0 :: subLoop P R f (some c0) rest
            | some n => R ++ subLoop P R f
                (some (((c0 :: rest).take n).getLastD c0)) ((c0 :: rest).drop n)) = _
          rw [hn]
        rw [hred] at hc
        rcases List.mem_append.mp hc with h1 | h1
        · exact Or.inr h1
        · rcases ih _ _ c h1 with h2 | h2
          · exact Or.inl (List.mem_of_mem_drop h2)
          · exact Or.inr h2
      · push_neg at hm
        have hn : tryMatch P prev (c0 :: rest) = none := by
          cases hx : tryMatch P prev (c0 :: rest) with
          | none => rfl
          | some k => exact absurd hx (hm k)
        have hred : subLoop P R (f + 1) prev (c0 :: rest) =
            c0 :: subLoop P R f (some c0) rest := by
          show (match tryMatch P prev (c0 :: rest) with
            | none => c0 :: subLoop P R f (some c0) rest
            | some n => R ++ subLoop P R f
                (some (((c0 :: rest).take n).getLastD c0)) ((c0 :: rest).drop n)) = _
          rw [hn]
        rw [hred] at hc
        rcases List.mem_cons.mp hc with rfl | h1
        · exact Or.inl (List.mem_cons_self _ _)
        · rcases ih _ _ c h1 with h2 | h2
          · exact Or.inl (List.mem_cons_of_mem _ h2)
          · exact Or.inr h2

/-- The seeded glossary introduces no line-boundary characters. -/
theorem apply_glossary_seed_no_break (l : List Char)
    (h : ∀ c ∈ l, isLineBreak c = false) :
    ∀ c ∈ apply_glossary_seed l, isLineBreak c = false := by
  intro c hc
  unfold apply_glossary_seed at hc
  rcases subLoop_chars _ _ _ _ _ c hc with h1 | h1
  · rcases subLoop_chars _ _ _ _ _ c h1 with h2 | h2
    · rcases subLoop_chars _ _ _ _ _ c h2 with h3 | h3
      · exact h c h3
      · exact (show ∀ x ∈ "Image".data, isLineBreak x = false by decide) c h3
    · exact (show ∀ x ∈ "node".data, isLineBreak x = false by decide) c h2
  · exact (show ∀ x ∈ "container".data, isLineBreak x = false by decide) c h1

/-- `transform_line` at the seeded glossary is idempotent on any line. -/
theorem transform_line_seed_idem (l0 : List Char) :
    transform_line apply_glossary_seed (transform_line apply_glossary_seed l0) =
      transform_line apply_glossary_seed l0 := by
  unfold transform_line
  by_cases hs : isStructural l0 = true
  · rw [if_pos hs, if_pos hs]
  · rw [if_neg hs]
    by_cases hs2 : isStructural (apply_glossary_seed l0) = true
    · rw [if_pos hs2]
    · rw [if_neg hs2]
      exact apply_glossary_seed_idem l0

theorem map_fix {α : Type} (f : α → α) :
    ∀ (l : List α), (∀ x ∈ l, f x = x) → l.map f = l := by
  intro l
  induction l with
  | nil => intro _; rfl
  | cons x xs ih =>
    intro h
    rw [List.map_cons, h x (List.mem_cons_self _ _),
      ih (fun y hy => h y (List.mem_cons_of_mem _ hy))]

theorem jn_append_nil :
    ∀ (X : List (List Char)), X ≠ [] → joinNl (X ++ [[]]) = joinNl X ++ ['\n'] := by
  intro X
  induction X with
  | nil => intro h; exact absurd rfl h
  | cons x xs ih =>
    intro _
    cases xs with
    | nil => rfl
    | cons y ys =>
      rw [show ((x :: y :: ys) ++ [[]]) = x :: ((y :: ys) ++ [[]]) from rfl,
        jn_cons x ((y :: ys) ++ [[]]) (by simp), jn_cons x (y :: ys) (by simp),
        ih (by simp)]
      simp [List.append_assoc]

set_option maxRecDepth 4000 in
/-- C9: the seeded transform is idempotent on whole documents (and
`apply_glossary` on the seeded rule list is the three seeded `re.sub`s in
order). -/
theorem claim_C9_transform_idempotent :
    (∀ line, apply_glossary seed_rule_sub default_seed_rules line =
      apply_glossary_seed line) ∧
    ∀ content, process_srt_text apply_glossary_seed
        (process_srt_text apply_glossary_seed content) =
      process_srt_text apply_glossary_seed content := by
  constructor
  · intro line
    rfl
  · intro content
    by_cases hnil : content = []
    · subst hnil
      rfl
    have hLnb := psl_no_break_chars content
    set g := transform_line apply_glossary_seed with hg
    set L := pySplitlines content with hL
    set L' := L.map g with hL'
    have hL'nb : ∀ l' ∈ L', ∀ c ∈ l', isLineBreak c = false := by
      intro l' hl' c hc
      obtain ⟨l0, hl0, rfl⟩ := List.mem_map.mp hl'
      have halt : g l0 = l0 ∨ g l0 = apply_glossary_seed l0 := by
        rw [hg]
        unfold transform_line
        split
        · exact Or.inl rfl
        · exact Or.inr rfl
      rcases halt with he | he
      · rw [he] at hc
        exact hLnb l0 hl0 c hc
      · rw [he] at hc
        exact apply_glossary_seed_no_break l0 (hLnb l0 hl0) c hc
    have hfix : ∀ l' ∈ L', g l' = l' := by
      intro l' hl'
      obtain ⟨l0, hl0, rfl⟩ := List.mem_map.mp hl'
      exact transform_line_seed_idem l0
    have hout : process_srt_text apply_glossary_seed content =
        joinNl L' ++ (if endsWithLF content then ['\n'] else []) := rfl
    cases hE : endsWithLF content with
    | true =>
      rw [hout, hE]
      simp only [if_true]
      have hLne : L ≠ [] := psl_ne_nil content hnil
      have hL'ne : L' ≠ [] := by
        rw [hL']
        intro hz
        exact hLne (List.map_eq_nil_iff.mp hz)
      have hjoin : joinNl L' ++ ['\n'] = joinNl (L' ++ [[]]) :=
        (jn_append_nil L' hL'ne).symm
      rw [hjoin]
      have hsplit2 : pySplitlines (joinNl (L' ++ [[]])) = L' := by
        rw [psl_joinNl (L' ++ [[]]) ?nb]
        case nb =>
          intro l hl c hc
          rcases List.mem_append.mp hl with h1 | h1
          · exact hL'nb l h1 c hc
          · simp at h1
            subst h1
            simp at hc
        rw [if_pos (by rw [List.getLast?_append_cons]; rfl)]
        exact List.dropLast_concat
      have hout2 : process_srt_text apply_glossary_seed (joinNl (L' ++ [[]])) =
          joinNl ((pySplitlines (joinNl (L' ++ [[]]))).map g) ++
            (if endsWithLF (joinNl (L' ++ [[]])) then ['\n'] else []) := rfl
      have hE2 : endsWithLF (joinNl (L' ++ [[]])) = true := by
        rw [← hjoin]
        simp [endsWithLF, List.getLast?_append_cons]
      rw [hout2, hsplit2, map_fix g L' hfix, hE2]
      simp only [if_true]
      exact hjoin
    | false =>
      rw [hout, hE]
      simp only [Bool.false_eq_true, if_false, List.append_nil]
      have hsplit2 := psl_joinNl L' hL'nb
      by_cases hgl : L'.getLast? = some []
      · rw [if_pos hgl] at hsplit2
        by_cases hdl : L'.dropLast = []
        · have hrestore : L'.dropLast ++ [[]] = L' :=
            List.dropLast_append_getLast? [] (Option.mem_def.mpr hgl)
          rw [hdl] at hrestore
          rw [← hrestore]
          rfl
        · have hrestore : L'.dropLast ++ [[]] = L' :=
            List.dropLast_append_getLast? [] (Option.mem_def.mpr hgl)
          have hjoinL' : joinNl L' = joinNl L'.dropLast ++ ['\n'] := by
            conv_lhs => rw [← hrestore]
            exact jn_append_nil _ hdl
          have hout2 : process_srt_text apply_glossary_seed (joinNl L') =
              joinNl ((pySplitlines (joinNl L')).map g) ++
                (if endsWithLF (joinNl L') then ['\n'] else []) := rfl
          have hE2 : endsWithLF (joinNl L') = true := by
            rw [hjoinL']
            simp [endsWithLF, List.getLast?_append_cons]
          have hfix2 : ∀ l' ∈ L'.dropLast, g l' = l' := fun l' hl' =>
            hfix l' ((List.dropLast_prefix L').subset hl')
          rw [hout2, hsplit2, hE2]
          simp only [if_true]
          rw [map_fix g _ hfix2, ← hjoinL']
      · rw [if_neg hgl] at hsplit2
        have hout2 : process_srt_text apply_glossary_seed (joinNl L') =
            joinNl ((pySplitlines (joinNl L')).map g) ++
              (if endsWithLF (joinNl L') then ['\n'] else []) := rfl
        have hE2 : endsWithLF (joinNl L') = false := by
          by_cases hL'e : L' = []
          · rw [hL'e]
            rfl
          · cases hgl2 : L'.getLast? with
            | none => exact absurd (List.getLast?_eq_none_iff.mp hgl2) hL'e
            | some l2 =>
              have hl2ne : l2 ≠ [] := by
                intro hz
                rw [hz] at hgl2
                exact hgl hgl2
              have hmem := mem_of_getLast?_eq _ _ hgl2
              have hj := joinNl_getLast L' l2 hgl2 hl2ne
              rw [endsWithLF, hj]
              cases hc : l2.getLast? with
              | none => simp
              | some cc =>
                have hcb : isLineBreak cc = false :=
                  hL'nb l2 hmem cc (mem_of_getLast?_eq _ _ hc)
                have hcc : cc ≠ '\n' := by
                  intro hz
                  rw [hz] at hcb
                  exact absurd hcb (by decide)
                simp [hcc]
        rw [hout2, hsplit2, hE2, map_fix g L' hfix]
        simp
